import Mathlib

/-!
# Stacked Y dashboard with a custom cursor

A shallow embedding of `src/index.js`.  The program builds a dashboard with one
XY chart and one line series per channel, a set of overlay widgets (a result
table with one X row and one Y row per channel, a custom tick on the bottom X
axis, a constant line on every other X axis, a custom tick on every Y axis) and
three event handlers per chart that move, show and hide those widgets.

Conventions of the embedding.

* A JavaScript number is an IEEE-754 binary64 value.  The numbers the program
  receives from the library (coordinates, interval bounds) are finite and are
  identified with the rational they denote (`ℚ`; the two zeros are not told
  apart); the literal `1.5` is the rational `3/2`.  The program passes them
  through unchanged except in one place, the test `x > end / 1.5` of line 219:
  there `JSNumber.div` is the IEEE division (the exact quotient rounded to the
  nearest binary64 value, ties to even) and `JSNumber.gt` the IEEE comparison.
* The charting library is a parameter: `Host` holds the functions the handlers
  call (`clientLocation2Engine`, `solveNearestFromScreen`, `translatePoint`,
  `getInterval`, `formatValue`).  A mouse-move event carries the host as it is
  when the event fires, because series data and axis intervals change over
  time.
* A widget is a record of the properties the program sets; `dispose` and
  `restore` set and clear its `disposed` flag, a setter overwrites its field and
  a getter reads it back.
* Reading a property of `undefined` throws in JavaScript; the embedding returns
  `none` there.
* Styling calls, the data generator (lines 81-90) and `synchronizeAxisIntervals`
  (lines 92-94) act inside the library only and are left out; their effect on
  what the handlers read is part of `Host`.
-/

namespace CustomCursorStackedY

/-! ## Data model -/

/-- A location `{ x, y }`. -/
structure Point where
  x : ℚ
  y : ℚ
deriving DecidableEq

/-- The result of `solveNearestFromScreen`; only `location` is read. -/
structure DataPoint where
  location : Point
deriving DecidableEq

/-- An axis interval as returned by `getInterval()`. -/
structure Interval where
  start : ℚ
  «end» : ℚ
deriving DecidableEq

/-- The two members of `UIOrigins` the program uses. -/
inductive UIOrigins where
  | LeftBottom
  | RightBottom
deriving DecidableEq

/-- The member of `AutoCursorModes` the program uses. -/
inductive AutoCursorModes where
  | disabled
deriving DecidableEq

/-- The member of `AxisTickStrategies` the program uses. -/
inductive AxisTickStrategies where
  | Empty
deriving DecidableEq

/-- The fill style the program uses. -/
inductive FillStyle where
  | emptyFill
deriving DecidableEq

/-- Which default axis of a chart. -/
inductive AxisDim where
  | X
  | Y
deriving DecidableEq

/-- A default axis, identified by the dashboard row of its chart. -/
structure Axis where
  chart : Nat
  dim : AxisDim
deriving DecidableEq

/-- A coordinate system: that of a series, or `dashboard.engine.scale`. -/
inductive Scale where
  | ofSeries (chart : Nat)
  | dashboardEngine
deriving DecidableEq

/-- An XY chart: its dashboard cell and the properties the program sets on it
(`none` means the program left the library default). -/
structure ChartXY where
  columnIndex : Nat
  rowIndex : Nat
  columnSpan : Nat
  rowSpan : Nat
  autoCursorMode : Option AutoCursorModes
  title : Option String
  titleFillStyle : Option FillStyle
  axisXTickStrategy : Option AxisTickStrategies
  axisYThickness : Option Nat
deriving DecidableEq

/-- A line series, identified by the dashboard row of its chart. -/
structure LineSeries where
  chart : Nat
  pattern : String
deriving DecidableEq

/-- The result table (a column layout on the dashboard). -/
structure ResultTable where
  position : Point
  origin : UIOrigins
  margin : Nat
  mouseInteractions : Bool
  disposed : Bool
deriving DecidableEq

/-- A text box in a row of the result table. -/
structure TextBox where
  text : String
deriving DecidableEq

/-- A custom tick on an axis. -/
structure CustomTick where
  axis : Axis
  value : ℚ
  allocatesAxisSpace : Bool
  disposed : Bool
deriving DecidableEq

/-- A constant line on an axis. -/
structure ConstantLine where
  axis : Axis
  value : ℚ
  mouseInteractions : Bool
  disposed : Bool
deriving DecidableEq

/-- The overlay widgets of the custom cursor. -/
structure Cursor where
  resultTable : ResultTable
  rowX : TextBox
  rowsY : List TextBox
  tickX : CustomTick
  ticksX : List ConstantLine
  ticksY : List CustomTick
deriving DecidableEq

/-- What the handlers close over. -/
structure App where
  channelCount : Nat
  charts : List ChartXY
  axisX : Axis
  seriesList : List LineSeries
deriving DecidableEq

/-- The library functions the handlers call, as they are when an event fires. -/
structure Host where
  clientLocation2Engine : ChartXY → ℚ → ℚ → Point
  solveNearestFromScreen : LineSeries → Point → Option DataPoint
  translatePoint : Point → Scale → Scale → Point
  getInterval : Axis → Interval
  formatValue : Axis → ℚ → String

/-- Property values of freshly created widgets that the program never sets
before it first reads or shows them. -/
structure Defaults where
  position : Point
  text : String
  tickValue : ℚ

/-- The fields of a mouse event the handler reads. -/
structure MouseEvent where
  clientX : ℚ
  clientY : ℚ

/-! ## JavaScript arithmetic (IEEE-754 binary64) -/

/-- The value of a JavaScript arithmetic expression: a finite double, identified with the
rational it denotes, an infinity, or NaN. -/
inductive JSNumber where
  | finite (q : ℚ)
  | posInfinity
  | negInfinity
  | NaN
deriving DecidableEq

/-- Counts, with at most `fuel` halvings, how often `n` can be halved before it drops below 2. -/
def halvings : Nat → Nat → Nat
  | 0, _ => 0
  | fuel + 1, n => if 2 ≤ n then halvings fuel (n / 2) + 1 else 0

/-- The natural number `e` with `2 ^ e ≤ n < 2 ^ (e + 1)`, for positive `n`. -/
def log2 (n : Nat) : Nat := halvings n n

/-- The integer `e` with `2 ^ e ≤ a / b < 2 ^ (e + 1)`, for positive `a` and `b`. -/
def floorLog2 (a b : Nat) : Int :=
  let e0 : Int := (log2 a : Int) - (log2 b : Int)
  if (if 0 ≤ e0 then 2 ^ e0.toNat * b ≤ a else b ≤ a * 2 ^ (-e0).toNat) then e0 else e0 - 1

/-- The natural number nearest to `a / b`, the even one of the two on a tie. -/
def roundHalfEven (a b : Nat) : Nat :=
  let f := a / b
  let rem := a % b
  if 2 * rem < b then f else if b < 2 * rem then f + 1 else if f % 2 = 0 then f else f + 1

/-- The binary64 value nearest to the rational `q`, ties to even (the IEEE-754 default
rounding): 53 significant bits, exponents from -1022 to 1023, gradual underflow below
`2 ^ (-1022)` in steps of `2 ^ (-1074)`, overflow to an infinity from `2 ^ 1024` on. -/
def roundToDouble (q : ℚ) : JSNumber :=
  if q = 0 then JSNumber.finite 0
  else
    let a := q.num.natAbs
    let b := q.den
    let k : Int := max (floorLog2 a b) (-1022) - 52
    let m : Nat :=
      if 0 ≤ k then roundHalfEven a (b * 2 ^ k.toNat) else roundHalfEven (a * 2 ^ (-k).toNat) b
    if 0 ≤ k ∧ 2 ^ 1024 ≤ m * 2 ^ k.toNat then
      if 0 < q then JSNumber.posInfinity else JSNumber.negInfinity
    else
      let s : Int := if 0 < q then 1 else -1
      JSNumber.finite
        (if 0 ≤ k then ((s * m * 2 ^ k.toNat : Int) : ℚ) else mkRat (s * m) (2 ^ (-k).toNat))

/-- The JavaScript `a / b` of two finite doubles: the exact quotient rounded to binary64;
a zero divisor counts as `+0`. -/
def JSNumber.div (a b : ℚ) : JSNumber :=
  if b = 0 then
    if a = 0 then JSNumber.NaN
    else if 0 < a then JSNumber.posInfinity else JSNumber.negInfinity
  else roundToDouble (a / b)

/-- The JavaScript `x > y`: false when either side is NaN. -/
def JSNumber.gt : JSNumber → JSNumber → Bool
  | JSNumber.finite x, JSNumber.finite y => decide (y < x)
  | JSNumber.finite _, JSNumber.negInfinity => true
  | JSNumber.posInfinity, JSNumber.finite _ => true
  | JSNumber.posInfinity, JSNumber.negInfinity => true
  | _, _ => false

/-! ## Array helpers -/

/-- Array `map` with the index, `xs.map((x, i) => f(x, i))`, the index starting at `k`. -/
def mapIdxFrom {α β : Type} (f : α → Nat → β) : List α → Nat → List β
  | [], _ => []
  | a :: as, k => f a k :: mapIdxFrom f as (k + 1)

/-- Array `map` with the index (or `forEach` replacing each `x` by `f(x, i)`)
for a callback that throws when `f` is `none`; the index starts at `k`. -/
def mapIdxFromOpt {α β : Type} (f : α → Nat → Option β) : List α → Nat → Option (List β)
  | [], _ => some []
  | a :: as, k =>
    match f a k with
    | none => none
    | some b =>
      match mapIdxFromOpt f as (k + 1) with
      | none => none
      | some bs => some (b :: bs)

/-- Array access `xs[i]` for a signed index; `none` is `undefined`. -/
def index {α : Type} (xs : List α) (i : Int) : Option α :=
  if i < 0 then none else xs[i.toNat]?

/-- Array access `xs[i]` for an array of possibly `undefined` entries. -/
def indexDefined {α : Type} (xs : List (Option α)) (i : Nat) : Option α :=
  match xs[i]? with
  | some (some a) => some a
  | _ => none

/-! ## Widget operations -/

def ChartXY.getDefaultAxisX (c : ChartXY) : Axis := ⟨c.rowIndex, AxisDim.X⟩

def ChartXY.getDefaultAxisY (c : ChartXY) : Axis := ⟨c.rowIndex, AxisDim.Y⟩

def ChartXY.addLineSeries (c : ChartXY) (pattern : String) : LineSeries := ⟨c.rowIndex, pattern⟩

def LineSeries.scale (s : LineSeries) : Scale := Scale.ofSeries s.chart

def ResultTable.setPosition (t : ResultTable) (p : Point) : ResultTable := { t with position := p }

def ResultTable.setOrigin (t : ResultTable) (o : UIOrigins) : ResultTable := { t with origin := o }

def ResultTable.dispose (t : ResultTable) : ResultTable := { t with disposed := true }

def ResultTable.restore (t : ResultTable) : ResultTable := { t with disposed := false }

def TextBox.setText (b : TextBox) (s : String) : TextBox := { b with text := s }

def CustomTick.setValue (t : CustomTick) (v : ℚ) : CustomTick := { t with value := v }

def CustomTick.getValue (t : CustomTick) : ℚ := t.value

def CustomTick.dispose (t : CustomTick) : CustomTick := { t with disposed := true }

def CustomTick.restore (t : CustomTick) : CustomTick := { t with disposed := false }

def ConstantLine.setValue (t : ConstantLine) (v : ℚ) : ConstantLine := { t with value := v }

def ConstantLine.dispose (t : ConstantLine) : ConstantLine := { t with disposed := true }

def ConstantLine.restore (t : ConstantLine) : ConstantLine := { t with disposed := false }

/-! ## Setup (lines 29-168) -/

/-- The channel list of the program. -/
def channels : List String := ["Ch 1", "Ch 2", "Ch 3"]

/-- The body of the callback of `channels.map` that creates chart `i`. -/
def createChart (channelCount : Nat) (i : Nat) : ChartXY :=
  let chart : ChartXY :=
    { columnIndex := 0, rowIndex := i, columnSpan := 1, rowSpan := 1,
      autoCursorMode := none, title := none, titleFillStyle := none,
      axisXTickStrategy := none, axisYThickness := none }
  let chart := { chart with autoCursorMode := some AutoCursorModes.disabled }
  let chart :=
    if i = 0 then { chart with title := some "Stacked Y Dashboard with Custom Cursor" }
    else { chart with titleFillStyle := some FillStyle.emptyFill }
  let chart :=
    if (i : Int) ≠ (channelCount : Int) - 1 then
      { chart with axisXTickStrategy := some AxisTickStrategies.Empty }
    else chart
  { chart with axisYThickness := some 50 }

/-- The array `charts`: one chart per channel. -/
def charts (channels : List String) : List ChartXY :=
  mapIdxFrom (fun _ i => createChart channels.length i) channels 0

/-- The array `seriesList`: one line series per chart. -/
def seriesList (charts : List ChartXY) : List LineSeries :=
  mapIdxFrom (fun chart _ => chart.addLineSeries "ProgressiveX") charts 0

/-- The array `ticksX`: a constant line at 0 on the X axis of every chart but the last. -/
def ticksX (channelCount : Nat) : List ChartXY → Nat → List ConstantLine
  | [], _ => []
  | chart :: rest, i =>
    if (i : Int) ≠ (channelCount : Int) - 1 then
      ({ axis := chart.getDefaultAxisX, value := 0, mouseInteractions := false,
         disposed := false } : ConstantLine) :: ticksX channelCount rest (i + 1)
    else ticksX channelCount rest (i + 1)

/-- The function `setCustomCursorVisible`. -/
def setCustomCursorVisible (visible : Bool) (c : Cursor) : Cursor :=
  if !visible then
    { c with
      resultTable := c.resultTable.dispose
      tickX := c.tickX.dispose
      ticksY := c.ticksY.map (fun el => el.dispose)
      ticksX := c.ticksX.map (fun el => el.dispose) }
  else
    { c with
      resultTable := c.resultTable.restore
      tickX := c.tickX.restore
      ticksY := c.ticksY.map (fun el => el.restore)
      ticksX := c.ticksX.map (fun el => el.restore) }

/-- The top-level script up to and including the first `setCustomCursorVisible(false)`:
the closure environment of the handlers and the initial overlay.  It is `none`
when `charts[charts.length - 1]` is `undefined`. -/
def setup (d : Defaults) (channels : List String) : Option (App × Cursor) :=
  let channelCount := channels.length
  let charts := charts channels
  match index charts ((charts.length : Int) - 1) with
  | none => none
  | some bottom =>
    let axisX := bottom.getDefaultAxisX
    let seriesList := seriesList charts
    let resultTable : ResultTable :=
      { position := d.position, origin := UIOrigins.LeftBottom, margin := 5,
        mouseInteractions := false, disposed := false }
    let rowX : TextBox := ⟨d.text⟩
    let rowsY : List TextBox := mapIdxFrom (fun _ _ => (⟨d.text⟩ : TextBox)) seriesList 0
    match index charts ((channelCount : Int) - 1) with
    | none => none
    | some last =>
      let tickX : CustomTick :=
        { axis := last.getDefaultAxisX, value := d.tickValue, allocatesAxisSpace := false,
          disposed := false }
      let ticksX := ticksX channelCount charts 0
      match mapIdxFromOpt (fun _ i => (charts[i]?).map (fun chart =>
          ({ axis := chart.getDefaultAxisY, value := d.tickValue,
             allocatesAxisSpace := false, disposed := false } : CustomTick)))
          seriesList 0 with
      | none => none
      | some ticksY =>
        some
          ({ channelCount := channelCount, charts := charts, axisX := axisX,
             seriesList := seriesList },
           setCustomCursorVisible false
             { resultTable := resultTable, rowX := rowX, rowsY := rowsY, tickX := tickX,
               ticksX := ticksX, ticksY := ticksY })

/-! ## Event handlers (lines 171-257) -/

/-- The value of `mouseLocationEngine`: the mouse location of the event translated
by `chart.engine.clientLocation2Engine`. -/
def mouseLocationEngine (h : Host) (chart : ChartXY) (event : MouseEvent) : Point :=
  let mouseLocationClient : Point := ⟨event.clientX, event.clientY⟩
  h.clientLocation2Engine chart mouseLocationClient.x mouseLocationClient.y

/-- The array `nearestDataPoints`: the nearest point of every series, `none` for `undefined`. -/
def nearestDataPoints (h : Host) (app : App) (loc : Point) : List (Option DataPoint) :=
  app.seriesList.map (fun el => h.solveNearestFromScreen el loc)

/-- The callback of `chart.onSeriesBackgroundMouseMove` registered for `chart`,
the `i`-th element of `charts`.  It is `none` where the JavaScript throws. -/
def onSeriesBackgroundMouseMove (h : Host) (app : App) (chart : ChartXY) (i : Nat)
    (event : MouseEvent) (c : Cursor) : Option Cursor :=
  let AxisX := chart.getDefaultAxisX
  let mouseLocationEngine := mouseLocationEngine h chart event
  let nearestDataPoints := nearestDataPoints h app mouseLocationEngine
  if nearestDataPoints.any (fun p => p.isNone) then
    some (setCustomCursorVisible false c)
  else
    match indexDefined nearestDataPoints i with
    | none => none
    | some nearest =>
      let nearestPointLocation := nearest.location
      match app.seriesList[i]? with
      | none => none
      | some series =>
        let mouseLocationAxis :=
          h.translatePoint nearestPointLocation series.scale Scale.dashboardEngine
        let resultTable :=
          c.resultTable.setPosition ⟨mouseLocationAxis.x, mouseLocationEngine.y⟩
        let resultTable :=
          if JSNumber.gt (JSNumber.finite nearestPointLocation.x)
              (JSNumber.div (h.getInterval AxisX).«end» 1.5) then
            resultTable.setOrigin UIOrigins.RightBottom
          else
            resultTable.setOrigin UIOrigins.LeftBottom
        let rowX := c.rowX.setText ("X: " ++ h.formatValue app.axisX nearest.location.x)
        match mapIdxFromOpt (fun (rowY : TextBox) j =>
            match app.charts[j]?, indexDefined nearestDataPoints j with
            | some chartJ, some p =>
              some (rowY.setText
                ("Y" ++ toString j ++ ": " ++ h.formatValue chartJ.getDefaultAxisY p.location.y))
            | _, _ => none) c.rowsY 0 with
        | none => none
        | some rowsY =>
          let tickX := c.tickX.setValue nearest.location.x
          let ticksX := c.ticksX.map (fun tick => tick.setValue tickX.getValue)
          match mapIdxFromOpt (fun (tick : CustomTick) j =>
              match indexDefined nearestDataPoints j with
              | some p => some (tick.setValue p.location.y)
              | none => none) c.ticksY 0 with
          | none => none
          | some ticksY =>
            some (setCustomCursorVisible true
              { resultTable := resultTable, rowX := rowX, rowsY := rowsY, tickX := tickX,
                ticksX := ticksX, ticksY := ticksY })

/-- The callback of `chart.onSeriesBackgroundMouseLeave`. -/
def onSeriesBackgroundMouseLeave (c : Cursor) : Cursor :=
  setCustomCursorVisible false c

/-- The callback of `chart.onSeriesBackgroundMouseDragStart`. -/
def onSeriesBackgroundMouseDragStart (c : Cursor) : Cursor :=
  setCustomCursorVisible false c

/-- A user event on the series background of the chart in row `i`. -/
inductive Event where
  | mouseMove (h : Host) (i : Nat) (event : MouseEvent)
  | mouseLeave (i : Nat)
  | mouseDragStart (i : Nat)

/-- The registration loop `charts.forEach((chart, i) => ...)`: the event runs the
handler registered for chart `i`; there is no handler for an index outside `charts`. -/
def dispatch (app : App) : Event → Cursor → Option Cursor
  | Event.mouseMove h i event, c =>
    match app.charts[i]? with
    | none => none
    | some chart => onSeriesBackgroundMouseMove h app chart i event c
  | Event.mouseLeave i, c =>
    match app.charts[i]? with
    | none => none
    | some _ => some (onSeriesBackgroundMouseLeave c)
  | Event.mouseDragStart i, c =>
    match app.charts[i]? with
    | none => none
    | some _ => some (onSeriesBackgroundMouseDragStart c)

/-- The overlay states the program can be in: the initial one and those an event leads to. -/
inductive Reachable (app : App) (c0 : Cursor) : Cursor → Prop where
  | init : Reachable app c0 c0
  | step {c c1 : Cursor} (e : Event) : Reachable app c0 c → dispatch app e c = some c1 →
      Reachable app c0 c1

/-! ## Predicates used in the statements -/

/-- Every overlay element has the disposed flag `b`. -/
def Cursor.allDisposed (c : Cursor) (b : Bool) : Prop :=
  c.resultTable.disposed = b ∧ c.tickX.disposed = b ∧
    (∀ t ∈ c.ticksY, t.disposed = b) ∧ (∀ t ∈ c.ticksX, t.disposed = b)

/-- The overlay has one Y row and one Y tick per series, and as many charts as series. -/
def Fits (app : App) (c : Cursor) : Prop :=
  app.charts.length = app.seriesList.length ∧ c.rowsY.length = app.seriesList.length ∧
    c.ticksY.length = app.seriesList.length

/-- The initial overlay of a program with `n` channels, in closed form. -/
def initialCursor (d : Defaults) (n : Nat) : Cursor :=
  { resultTable := ⟨d.position, UIOrigins.LeftBottom, 5, false, true⟩,
    rowX := ⟨d.text⟩,
    rowsY := List.replicate n ⟨d.text⟩,
    tickX := ⟨⟨n - 1, AxisDim.X⟩, d.tickValue, false, true⟩,
    ticksX := (List.range (n - 1)).map (fun k => ⟨⟨k, AxisDim.X⟩, 0, false, true⟩),
    ticksY := (List.range n).map (fun j => ⟨⟨j, AxisDim.Y⟩, d.tickValue, false, true⟩) }

/-- The closure environment of a program with the given channels, in closed form. -/
def initialApp (channels : List String) : App :=
  { channelCount := channels.length, charts := charts channels,
    axisX := ⟨channels.length - 1, AxisDim.X⟩, seriesList := seriesList (charts channels) }

/-- The axes the ticks and constant lines of the overlay sit on. -/
def Cursor.axes (c : Cursor) : Axis × List Axis × List Axis :=
  (c.tickX.axis, c.ticksX.map (fun t => t.axis), c.ticksY.map (fun t => t.axis))

/-- What every reachable overlay state satisfies. -/
def Inv (app : App) (c0 c : Cursor) : Prop :=
  Fits app c ∧ c.ticksX.length = c0.ticksX.length ∧ c.axes = c0.axes ∧
    (c.allDisposed true ∨ c.allDisposed false)

/-- The observable part of the overlay: table position and origin, row texts, tick and line
values, and the disposed flag of every element. -/
def Cursor.view (c : Cursor) :
    Point × UIOrigins × String × List String × ℚ × List ℚ × List ℚ ×
      Bool × Bool × List Bool × List Bool :=
  (c.resultTable.position, c.resultTable.origin, c.rowX.text, c.rowsY.map (fun r => r.text),
    c.tickX.value, c.ticksX.map (fun t => t.value), c.ticksY.map (fun t => t.value),
    c.resultTable.disposed, c.tickX.disposed, c.ticksX.map (fun t => t.disposed),
    c.ticksY.map (fun t => t.disposed))

/-! ## Worked examples -/

/-- Widget defaults used in the worked examples. -/
def exampleDefaults : Defaults := ⟨⟨0, 0⟩, "", 0⟩

/-- A host in which every series yields a nearest point at x = 45 and every X axis
has the interval `iv`. -/
def intervalHost (iv : Interval) : Host where
  clientLocation2Engine := fun _ x y => ⟨x, y⟩
  solveNearestFromScreen := fun s _ =>
    some ⟨⟨45, if s.chart = 0 then 7 else if s.chart = 1 then 8 else 9⟩⟩
  translatePoint := fun p _ _ => ⟨p.x, p.y⟩
  getInterval := fun _ => iv
  formatValue := fun a v => (if a.dim = AxisDim.X then "x" else "y") ++ toString v.num

/-- The host of the worked examples: the visible X interval is [30, 60]. -/
def exampleHost : Host := intervalHost ⟨30, 60⟩

/-- The nearest points `intervalHost` yields for the three series. -/
def examplePoints : List DataPoint := [⟨⟨45, 7⟩⟩, ⟨⟨45, 8⟩⟩, ⟨⟨45, 9⟩⟩]

/-- A host in which the series of the second chart yields no nearest point. -/
def gapHost : Host where
  clientLocation2Engine := fun _ x y => ⟨x, y⟩
  solveNearestFromScreen := fun s _ => if s.chart = 1 then none else some ⟨⟨45, 7⟩⟩
  translatePoint := fun p _ _ => ⟨p.x, p.y⟩
  getInterval := fun _ => ⟨30, 60⟩
  formatValue := fun _ _ => ""

/-- The mouse event used in the worked examples. -/
def exampleEvent : MouseEvent := ⟨40, 12⟩

/-- A host like `exampleHost` whose first and third series yield other nearest points. -/
def otherHost : Host where
  clientLocation2Engine := fun _ x y => ⟨x, y⟩
  solveNearestFromScreen := fun s _ =>
    some (if s.chart = 0 then ⟨⟨1, 2⟩⟩ else if s.chart = 1 then ⟨⟨45, 8⟩⟩ else ⟨⟨3, 4⟩⟩)
  translatePoint := fun p _ _ => ⟨p.x, p.y⟩
  getInterval := fun _ => ⟨30, 60⟩
  formatValue := fun a v => (if a.dim = AxisDim.X then "x" else "y") ++ toString v.num

/-- The nearest points `otherHost` yields for the three series. -/
def otherPoints : List DataPoint := [⟨⟨1, 2⟩⟩, ⟨⟨45, 8⟩⟩, ⟨⟨3, 4⟩⟩]

/-- A shown overlay, as left by a mouse-move. -/
def shownExample : Cursor := setCustomCursorVisible true (initialCursor exampleDefaults 3)

/-- The double written 66.66666666666667, which is the value of `100 / 1.5`. -/
def quotient100 : ℚ := 4691249611844267 / 70368744177664

/-- A host in which every series yields a nearest point at x = 66.66666666666667 and every
X axis has the interval [0, 100]. -/
def tieHost : Host where
  clientLocation2Engine := fun _ x y => ⟨x, y⟩
  solveNearestFromScreen := fun s _ =>
    some ⟨⟨quotient100, if s.chart = 0 then 7 else if s.chart = 1 then 8 else 9⟩⟩
  translatePoint := fun p _ _ => ⟨p.x, p.y⟩
  getInterval := fun _ => ⟨0, 100⟩
  formatValue := fun _ _ => ""

/-- The nearest points `tieHost` yields for the three series. -/
def tiePoints : List DataPoint := [⟨⟨quotient100, 7⟩⟩, ⟨⟨quotient100, 8⟩⟩, ⟨⟨quotient100, 9⟩⟩]

/-! ## Checks of the binary64 arithmetic -/

theorem halvings_spec (fuel n : Nat) (hn : 0 < n) (hf : n ≤ fuel) :
    2 ^ halvings fuel n ≤ n ∧ n < 2 ^ (halvings fuel n + 1) := by
  induction fuel generalizing n with
  | zero => omega
  | succ fuel ih =>
    unfold halvings
    by_cases h2 : 2 ≤ n
    · obtain ⟨h1, h3⟩ := ih (n / 2) (by omega) (by omega)
      simp only [h2, if_true]
      constructor
      · rw [pow_succ]
        omega
      · rw [pow_succ]
        omega
    · have h1 : n = 1 := by omega
      simp [h1]

theorem log2_spec (n : Nat) (hn : 0 < n) : 2 ^ log2 n ≤ n ∧ n < 2 ^ (log2 n + 1) :=
  halvings_spec n n hn (le_refl n)

theorem roundHalfEven_spec (a b : Nat) (hb : 0 < b) :
    2 * (roundHalfEven a b * b) ≤ 2 * a + b ∧ 2 * a ≤ 2 * (roundHalfEven a b * b) + b := by
  have hdm : b * (a / b) + a % b = a := Nat.div_add_mod a b
  have hlt : a % b < b := Nat.mod_lt a hb
  have hc : a / b * b = b * (a / b) := Nat.mul_comm _ _
  have hc1 : (a / b + 1) * b = b * (a / b) + b := by rw [Nat.add_mul, hc]; simp
  unfold roundHalfEven
  simp only []
  split_ifs <;> first | (rw [hc]; omega) | (rw [hc1]; omega)

theorem div_60 : JSNumber.div 60 1.5 = JSNumber.finite 40 := by decide!

theorem div_100 : JSNumber.div 100 1.5 = JSNumber.finite quotient100 := by decide!

theorem roundToDouble_tenth :
    roundToDouble (1 / 10) = JSNumber.finite (3602879701896397 / 36028797018963968) := by
  decide!

theorem roundToDouble_fixed :
    roundToDouble 30 = JSNumber.finite 30 ∧ roundToDouble 45 = JSNumber.finite 45 ∧
      roundToDouble 60 = JSNumber.finite 60 ∧ roundToDouble 100 = JSNumber.finite 100 ∧
      roundToDouble (3 / 2) = JSNumber.finite (3 / 2) ∧
      roundToDouble quotient100 = JSNumber.finite quotient100 := by
  refine ⟨?_, ?_, ?_, ?_, ?_, ?_⟩ <;> decide!

theorem roundToDouble_odd53 :
    roundToDouble (2 ^ 53 + 1) = JSNumber.finite (2 ^ 53) ∧
      roundToDouble (2 ^ 53 + 3) = JSNumber.finite (2 ^ 53 + 4) := by
  refine ⟨?_, ?_⟩ <;> decide!

theorem roundToDouble_range :
    roundToDouble (2 ^ 1024) = JSNumber.posInfinity ∧
      roundToDouble (2 ^ 1024 - 2 ^ 970) = JSNumber.posInfinity ∧
      roundToDouble (2 ^ 1024 - 2 ^ 971) = JSNumber.finite (2 ^ 1024 - 2 ^ 971) ∧
      roundToDouble (-(2 ^ 1024)) = JSNumber.negInfinity ∧
      roundToDouble (1 / 2 ^ 1074) = JSNumber.finite (1 / 2 ^ 1074) ∧
      roundToDouble (1 / 2 ^ 1075) = JSNumber.finite 0 ∧
      roundToDouble (3 / 2 ^ 1075) = JSNumber.finite (1 / 2 ^ 1073) := by
  refine ⟨?_, ?_, ?_, ?_, ?_, ?_, ?_⟩ <;> decide!

theorem div_onePointFive (a : ℚ) : JSNumber.div a 1.5 = roundToDouble ((2 / 3) * a) := by
  have h0 : ¬ ((1.5 : ℚ) = 0) := by norm_num
  have h1 : a / 1.5 = (2 / 3) * a := by
    norm_num
    ring
  simp only [JSNumber.div, h0, if_false, h1]

theorem gt_finite (x y : ℚ) :
    JSNumber.gt (JSNumber.finite x) (JSNumber.finite y) = true ↔ y < x := by
  simp [JSNumber.gt]

/-! ## Array lemmas -/

theorem mapIdxFrom_length {α β : Type} (f : α → Nat → β) (xs : List α) (k : Nat) :
    (mapIdxFrom f xs k).length = xs.length := by
  induction xs generalizing k with
  | nil => rfl
  | cons a as ih => simp [mapIdxFrom, ih]

theorem mapIdxFrom_getElem? {α β : Type} (f : α → Nat → β) (xs : List α) (k j : Nat) :
    (mapIdxFrom f xs k)[j]? = (xs[j]?).map (fun a => f a (k + j)) := by
  induction xs generalizing k j with
  | nil => simp [mapIdxFrom]
  | cons a as ih =>
    cases j with
    | zero => simp [mapIdxFrom]
    | succ j =>
      simp only [mapIdxFrom, List.getElem?_cons_succ, ih]
      have : k + 1 + j = k + (j + 1) := by omega
      rw [this]

theorem mapIdxFromOpt_some {α β : Type} (f : α → Nat → Option β) (xs : List α) (k : Nat)
    (hf : ∀ j a, xs[j]? = some a → (f a (k + j)).isSome = true) :
    ∃ ys, mapIdxFromOpt f xs k = some ys ∧ ys.length = xs.length ∧
      ∀ j a, xs[j]? = some a → ys[j]? = f a (k + j) := by
  induction xs generalizing k with
  | nil => exact ⟨[], rfl, rfl, by simp⟩
  | cons a as ih =>
    have h0 := hf 0 a (by simp)
    obtain ⟨b, hb⟩ := Option.isSome_iff_exists.mp h0
    have htail : ∀ j x, as[j]? = some x → (f x (k + 1 + j)).isSome = true := by
      intro j x hx
      have := hf (j + 1) x (by simpa using hx)
      have e : k + 1 + j = k + (j + 1) := by omega
      rw [e]; exact this
    obtain ⟨bs, hbs, hlen, hget⟩ := ih (k + 1) htail
    refine ⟨b :: bs, ?_, by simp [hlen], ?_⟩
    · have hb0 : f a k = some b := by simpa using hb
      simp [mapIdxFromOpt, hb0, hbs]
    · intro j x hx
      cases j with
      | zero =>
        simp at hx
        subst hx
        simpa using hb.symm
      | succ j =>
        have := hget j x (by simpa using hx)
        have e : k + 1 + j = k + (j + 1) := by omega
        rw [e] at this
        simpa using this

theorem indexDefined_map_some {α : Type} (ps : List α) (j : Nat) :
    indexDefined (ps.map some) j = ps[j]? := by
  unfold indexDefined
  cases hj : ps[j]? with
  | none => simp [hj]
  | some a => simp [hj]

theorem any_isNone_map_some {α : Type} (ps : List α) :
    (ps.map some).any (fun p => p.isNone) = false := by
  induction ps with
  | nil => rfl
  | cons a as ih => simp

theorem map_eq_of_pointwise {α β γ : Type} (l1 : List α) (l2 : List β) (f : α → γ) (g : β → γ)
    (hlen : l1.length = l2.length)
    (hpt : ∀ (j : Nat) (a : α) (b : β), l1[j]? = some a → l2[j]? = some b → f a = g b) :
    l1.map f = l2.map g := by
  apply List.ext_getElem?
  intro j
  by_cases hj : j < l1.length
  · have hj2 : j < l2.length := by omega
    rw [List.getElem?_map, List.getElem?_map, List.getElem?_eq_getElem hj,
      List.getElem?_eq_getElem hj2]
    simp only [Option.map_some']
    rw [hpt j l1[j] l2[j] (List.getElem?_eq_getElem hj) (List.getElem?_eq_getElem hj2)]
  · rw [List.getElem?_map, List.getElem?_map, List.getElem?_eq_none (by omega),
      List.getElem?_eq_none (by omega)]
    rfl

/-! ## The mouse-move handler when every series yields a nearest point -/

theorem mouseMove_shown (h : Host) (app : App) (chart : ChartXY) (i : Nat) (event : MouseEvent)
    (c : Cursor) (ps : List DataPoint) (series : LineSeries) (p : DataPoint)
    (hfit : Fits app c)
    (hps : nearestDataPoints h app (mouseLocationEngine h chart event) = ps.map some)
    (hs : app.seriesList[i]? = some series) (hp : ps[i]? = some p) :
    ∃ c1, onSeriesBackgroundMouseMove h app chart i event c = some c1 ∧
      c1.resultTable =
        { position :=
            ⟨(h.translatePoint p.location series.scale Scale.dashboardEngine).x,
             (mouseLocationEngine h chart event).y⟩,
          origin :=
            if JSNumber.gt (JSNumber.finite p.location.x)
                (JSNumber.div (h.getInterval chart.getDefaultAxisX).«end» 1.5) then
              UIOrigins.RightBottom
            else UIOrigins.LeftBottom,
          margin := c.resultTable.margin,
          mouseInteractions := c.resultTable.mouseInteractions,
          disposed := false } ∧
      c1.rowX = ⟨"X: " ++ h.formatValue app.axisX p.location.x⟩ ∧
      c1.rowsY.length = c.rowsY.length ∧
      (∀ (j : Nat) (chartJ : ChartXY) (q : DataPoint), app.charts[j]? = some chartJ → ps[j]? = some q →
        c1.rowsY[j]? = some
          (⟨"Y" ++ toString j ++ ": " ++ h.formatValue chartJ.getDefaultAxisY q.location.y⟩ :
            TextBox)) ∧
      c1.tickX = ⟨c.tickX.axis, p.location.x, c.tickX.allocatesAxisSpace, false⟩ ∧
      c1.ticksX =
        c.ticksX.map
          (fun t => (⟨t.axis, p.location.x, t.mouseInteractions, false⟩ : ConstantLine)) ∧
      c1.ticksY.length = c.ticksY.length ∧
      (∀ (j : Nat) (t : CustomTick) (q : DataPoint), c.ticksY[j]? = some t → ps[j]? = some q →
        c1.ticksY[j]? =
          some (⟨t.axis, q.location.y, t.allocatesAxisSpace, false⟩ : CustomTick)) ∧
      c1.allDisposed false := by
  obtain ⟨hcs, hrows, hticks⟩ := hfit
  have hlen : ps.length = app.seriesList.length := by
    have := congrArg List.length hps
    simpa [nearestDataPoints] using this.symm
  -- the Y rows
  obtain ⟨rowsY, hrowsEq, hrowsLen, hrowsGet⟩ :=
    mapIdxFromOpt_some (fun (rowY : TextBox) j =>
        match app.charts[j]?, indexDefined (ps.map some) j with
        | some chartJ, some p =>
          some (rowY.setText
            ("Y" ++ toString j ++ ": " ++ h.formatValue chartJ.getDefaultAxisY p.location.y))
        | _, _ => none) c.rowsY 0 (by
      intro j a ha
      have hj : j < c.rowsY.length := by
        by_contra hcon
        rw [List.getElem?_eq_none (by omega)] at ha
        cases ha
      have h1 : j < app.charts.length := by omega
      have h2 : j < ps.length := by omega
      simp [indexDefined_map_some, List.getElem?_eq_getElem h1, List.getElem?_eq_getElem h2])
  -- the Y ticks
  obtain ⟨ticksY, hticksEq, hticksLen, hticksGet⟩ :=
    mapIdxFromOpt_some (fun (tick : CustomTick) j =>
        match indexDefined (ps.map some) j with
        | some p => some (tick.setValue p.location.y)
        | none => none) c.ticksY 0 (by
      intro j a ha
      have hj : j < c.ticksY.length := by
        by_contra hcon
        rw [List.getElem?_eq_none (by omega)] at ha
        cases ha
      have h2 : j < ps.length := by omega
      simp [indexDefined_map_some, List.getElem?_eq_getElem h2])
  have heq : onSeriesBackgroundMouseMove h app chart i event c =
      some (setCustomCursorVisible true
        { resultTable :=
            if JSNumber.gt (JSNumber.finite p.location.x)
                (JSNumber.div (h.getInterval chart.getDefaultAxisX).«end» 1.5) then
              (c.resultTable.setPosition
                ⟨(h.translatePoint p.location series.scale Scale.dashboardEngine).x,
                 (mouseLocationEngine h chart event).y⟩).setOrigin
                UIOrigins.RightBottom
            else
              (c.resultTable.setPosition
                ⟨(h.translatePoint p.location series.scale Scale.dashboardEngine).x,
                 (mouseLocationEngine h chart event).y⟩).setOrigin
                UIOrigins.LeftBottom,
          rowX := c.rowX.setText ("X: " ++ h.formatValue app.axisX p.location.x),
          rowsY := rowsY,
          tickX := c.tickX.setValue p.location.x,
          ticksX := c.ticksX.map (fun tick => tick.setValue (c.tickX.setValue p.location.x).getValue),
          ticksY := ticksY }) := by
    unfold onSeriesBackgroundMouseMove
    simp only [hps, any_isNone_map_some, indexDefined_map_some, hp, hs]
    simp only [indexDefined_map_some] at hrowsEq hticksEq
    simp only [hrowsEq, hticksEq]
    rfl
  refine ⟨_, heq, ?_⟩
  · refine ⟨?_, ?_, ?_, ?_, ?_, ?_, ?_, ?_, ?_⟩
    · cases hgt : JSNumber.gt (JSNumber.finite p.location.x)
          (JSNumber.div (h.getInterval chart.getDefaultAxisX).«end» 1.5) <;>
        simp [setCustomCursorVisible, ResultTable.restore, ResultTable.setOrigin,
          ResultTable.setPosition, hgt]
    · simp [setCustomCursorVisible, TextBox.setText]
    · simp [setCustomCursorVisible, hrowsLen]
    · intro j chartJ q hc hq
      have hj : j < c.rowsY.length := by
        have := (List.getElem?_eq_some_iff.mp hq).1
        omega
      have := hrowsGet j c.rowsY[j] (List.getElem?_eq_getElem hj)
      simp [setCustomCursorVisible, this, hc, hq, indexDefined_map_some, TextBox.setText]
    · simp [setCustomCursorVisible, CustomTick.restore, CustomTick.setValue]
    · simp [setCustomCursorVisible, ConstantLine.restore, ConstantLine.setValue,
        CustomTick.setValue, CustomTick.getValue]
    · simp [setCustomCursorVisible, hticksLen]
    · intro j t q ht hq
      have := hticksGet j t ht
      simp [setCustomCursorVisible, this, hq, indexDefined_map_some, CustomTick.setValue,
        CustomTick.restore]
    · simp [Cursor.allDisposed, setCustomCursorVisible, ResultTable.restore,
        CustomTick.restore, ConstantLine.restore]

/-! ## Facts about the setup -/

theorem charts_length (channels : List String) : (charts channels).length = channels.length := by
  simp [charts, mapIdxFrom_length]

theorem charts_getElem? (channels : List String) (i : Nat) (hi : i < channels.length) :
    (charts channels)[i]? = some (createChart channels.length i) := by
  simp [charts, mapIdxFrom_getElem?, List.getElem?_eq_getElem hi]

theorem seriesList_length (cs : List ChartXY) : (seriesList cs).length = cs.length := by
  simp [seriesList, mapIdxFrom_length]

theorem seriesList_getElem? (cs : List ChartXY) (i : Nat) :
    (seriesList cs)[i]? = (cs[i]?).map (fun chart => chart.addLineSeries "ProgressiveX") := by
  simp [seriesList, mapIdxFrom_getElem?]

theorem createChart_rowIndex (n i : Nat) : (createChart n i).rowIndex = i := by
  unfold createChart
  split <;> split <;> rfl

theorem createChart_eq (n i : Nat) (hi : i < n) :
    createChart n i =
      { columnIndex := 0, rowIndex := i, columnSpan := 1, rowSpan := 1,
        autoCursorMode := some AutoCursorModes.disabled,
        title := if i = 0 then some "Stacked Y Dashboard with Custom Cursor" else none,
        titleFillStyle := if i = 0 then none else some FillStyle.emptyFill,
        axisXTickStrategy := if i = n - 1 then none else some AxisTickStrategies.Empty,
        axisYThickness := some 50 } := by
  have hcast : ((i : Int) ≠ (n : Int) - 1) ↔ i ≠ n - 1 := by omega
  unfold createChart
  simp only [hcast]
  split_ifs <;> first | rfl | contradiction

theorem ticksX_eq (n : Nat) (cs : List ChartXY) (i : Nat) (hn : i + cs.length = n) :
    ticksX n cs i =
      cs.dropLast.map (fun chart =>
        (⟨chart.getDefaultAxisX, 0, false, false⟩ : ConstantLine)) := by
  induction cs generalizing i with
  | nil => rfl
  | cons a rest ih =>
    cases rest with
    | nil =>
      have : ¬ ((i : Int) ≠ (n : Int) - 1) := by
        simp at hn
        omega
      simp [ticksX, this]
    | cons b rest =>
      have hne : (i : Int) ≠ (n : Int) - 1 := by
        simp at hn
        omega
      have := ih (i + 1) (by simp at hn ⊢; omega)
      simp [ticksX, hne] at this ⊢
      exact this

theorem index_last {α : Type} (xs : List α) (n : Nat) (hpos : 0 < n) :
    index xs ((n : Int) - 1) = xs[n - 1]? := by
  unfold index
  have h1 : ¬ ((n : Int) - 1 < 0) := by omega
  have h2 : ((n : Int) - 1).toNat = n - 1 := by omega
  simp [h1, h2]

theorem initial_ticksY (d : Defaults) (channels : List String) :
    ∃ ticksY, mapIdxFromOpt (fun (_ : LineSeries) i => ((charts channels)[i]?).map (fun chart =>
          ({ axis := chart.getDefaultAxisY, value := d.tickValue,
             allocatesAxisSpace := false, disposed := false } : CustomTick)))
        (seriesList (charts channels)) 0 = some ticksY ∧
      ticksY.map (fun el => el.dispose) =
        (List.range channels.length).map
          (fun j => (⟨⟨j, AxisDim.Y⟩, d.tickValue, false, true⟩ : CustomTick)) := by
  obtain ⟨ticksY, hEq, hLen, hGet⟩ :=
    mapIdxFromOpt_some (fun (_ : LineSeries) i => ((charts channels)[i]?).map (fun chart =>
          ({ axis := chart.getDefaultAxisY, value := d.tickValue,
             allocatesAxisSpace := false, disposed := false } : CustomTick)))
      (seriesList (charts channels)) 0 (by
        intro j a ha
        have hj : j < (seriesList (charts channels)).length := (List.getElem?_eq_some_iff.mp ha).1
        rw [seriesList_length, charts_length] at hj
        simp [charts_getElem? channels j hj])
  refine ⟨ticksY, hEq, ?_⟩
  rw [seriesList_length, charts_length] at hLen
  apply List.ext_getElem?
  intro j
  by_cases hj : j < channels.length
  · have hs : (seriesList (charts channels))[j]? =
        some ((createChart channels.length j).addLineSeries "ProgressiveX") := by
      simp [seriesList_getElem?, charts_getElem? channels j hj]
    have := hGet j _ hs
    simp only [Nat.zero_add, charts_getElem? channels j hj, Option.map_some'] at this
    rw [List.getElem?_map, List.getElem?_map, this, List.getElem?_range hj]
    simp [CustomTick.dispose, ChartXY.getDefaultAxisY, createChart_rowIndex]
  · rw [List.getElem?_map, List.getElem?_map, List.getElem?_eq_none (by omega),
      List.getElem?_eq_none (by simp; omega)]
    rfl

theorem initial_ticksX (channels : List String) :
    (ticksX channels.length (charts channels) 0).map (fun el => el.dispose) =
      (List.range (channels.length - 1)).map
        (fun k => (⟨⟨k, AxisDim.X⟩, 0, false, true⟩ : ConstantLine)) := by
  rw [ticksX_eq _ _ 0 (by simp [charts_length])]
  apply List.ext_getElem?
  intro k
  by_cases hk : k < channels.length - 1
  · have hk2 : k < channels.length := by omega
    have hd : (charts channels).dropLast[k]? = some (createChart channels.length k) := by
      rw [List.dropLast_eq_take, List.getElem?_take_of_lt (by simpa [charts_length] using hk)]
      exact charts_getElem? channels k hk2
    rw [List.getElem?_map, List.getElem?_map, List.getElem?_map, hd, List.getElem?_range hk]
    simp [ConstantLine.dispose, ChartXY.getDefaultAxisX, createChart_rowIndex]
  · rw [List.getElem?_map, List.getElem?_map, List.getElem?_map,
      List.getElem?_eq_none (by simp [charts_length]; omega),
      List.getElem?_eq_none (by simp; omega)]
    rfl

theorem initial_rowsY (d : Defaults) (channels : List String) :
    mapIdxFrom (fun _ _ => (⟨d.text⟩ : TextBox)) (seriesList (charts channels)) 0 =
      List.replicate channels.length ⟨d.text⟩ := by
  apply List.ext_getElem?
  intro j
  by_cases hj : j < channels.length
  · simp [mapIdxFrom_getElem?, seriesList_getElem?, charts_getElem? channels j hj,
      List.getElem?_replicate, hj]
  · have h1 : (charts channels).length ≤ j := by rw [charts_length]; omega
    simp [mapIdxFrom_getElem?, seriesList_getElem?, List.getElem?_eq_none h1,
      List.getElem?_replicate, hj]

theorem setup_eq (d : Defaults) (channels : List String) (hne : channels ≠ []) :
    setup d channels = some (initialApp channels, initialCursor d channels.length) := by
  have hpos : 0 < channels.length := List.length_pos.mpr hne
  have hlast : (charts channels)[channels.length - 1]? =
      some (createChart channels.length (channels.length - 1)) :=
    charts_getElem? channels _ (by omega)
  obtain ⟨ticksY, hEq, hY⟩ := initial_ticksY d channels
  unfold setup
  simp only [charts_length, index_last _ _ hpos, hlast, hEq]
  simp only [setCustomCursorVisible, hY, initial_ticksX, initial_rowsY]
  simp [initialApp, initialCursor, ResultTable.dispose, CustomTick.dispose,
    ChartXY.getDefaultAxisX, createChart_rowIndex]

/-! ## The hide path and the invariant of the reachable states -/

theorem exists_of_any_isNone_false {α : Type} (l : List (Option α))
    (hl : l.any (fun p => p.isNone) = false) : ∃ ps : List α, l = ps.map some := by
  induction l with
  | nil => exact ⟨[], rfl⟩
  | cons a as ih =>
    simp only [List.any_cons, Bool.or_eq_false_iff] at hl
    obtain ⟨ps, hps⟩ := ih hl.2
    cases a with
    | none => simp at hl
    | some x => exact ⟨x :: ps, by simp [hps]⟩

theorem series_of_solved {α : Type} (f : LineSeries → Option α) (ss : List LineSeries)
    (ps : List α) (i : Nat) (p : α) (hps : ss.map f = ps.map some) (hp : ps[i]? = some p) :
    ∃ series, ss[i]? = some series ∧ f series = some p := by
  have hi : i < ps.length := (List.getElem?_eq_some_iff.mp hp).1
  have hlen : ss.length = ps.length := by simpa using congrArg List.length hps
  have hi2 : i < ss.length := by omega
  refine ⟨ss[i], List.getElem?_eq_getElem hi2, ?_⟩
  have := congrArg (fun l => l[i]?) hps
  simpa [List.getElem?_eq_getElem hi2, hp] using this

theorem mouseMove_hidden (h : Host) (app : App) (chart : ChartXY) (i : Nat) (event : MouseEvent)
    (c : Cursor)
    (hany : (nearestDataPoints h app (mouseLocationEngine h chart event)).any
        (fun p => p.isNone) = true) :
    onSeriesBackgroundMouseMove h app chart i event c = some (setCustomCursorVisible false c) := by
  unfold onSeriesBackgroundMouseMove
  simp only [hany, if_true]

theorem hidden_allDisposed (c : Cursor) : (setCustomCursorVisible false c).allDisposed true := by
  simp [setCustomCursorVisible, Cursor.allDisposed, ResultTable.dispose, CustomTick.dispose,
    ConstantLine.dispose]

theorem hidden_inv (app : App) (c0 c : Cursor) (hc : Inv app c0 c) :
    Inv app c0 (setCustomCursorVisible false c) := by
  obtain ⟨hfit, hlen, hax, _⟩ := hc
  refine ⟨?_, ?_, ?_, Or.inl (hidden_allDisposed c)⟩
  · simpa [Fits, setCustomCursorVisible] using hfit
  · simpa [setCustomCursorVisible] using hlen
  · rw [← hax]
    simp [Cursor.axes, setCustomCursorVisible, CustomTick.dispose, ConstantLine.dispose,
      Function.comp_def]

theorem mouseMove_inv (h : Host) (app : App) (chart : ChartXY) (i : Nat) (event : MouseEvent)
    (c0 c : Cursor) (hc : Inv app c0 c) (hi : i < app.charts.length) :
    ∃ c1, onSeriesBackgroundMouseMove h app chart i event c = some c1 ∧ Inv app c0 c1 := by
  cases hany : (nearestDataPoints h app (mouseLocationEngine h chart event)).any
      (fun p => p.isNone) with
  | true => exact ⟨_, mouseMove_hidden h app chart i event c hany, hidden_inv app c0 c hc⟩
  | false =>
    obtain ⟨ps, hps⟩ := exists_of_any_isNone_false _ hany
    obtain ⟨hfit, hlen, hax, _⟩ := hc
    have hl : ps.length = app.seriesList.length := by
      simpa [nearestDataPoints] using (congrArg List.length hps).symm
    have hi2 : i < ps.length := by rw [hl, ← hfit.1]; exact hi
    obtain ⟨series, hs, _⟩ := series_of_solved _ _ ps i ps[i] hps (List.getElem?_eq_getElem hi2)
    obtain ⟨c1, heq, _, _, hRY, _, hTX, hTXs, hTYl, hTY, hshown⟩ :=
      mouseMove_shown h app chart i event c ps series ps[i] hfit hps hs
        (List.getElem?_eq_getElem hi2)
    refine ⟨c1, heq, ⟨hfit.1, by rw [hRY]; exact hfit.2.1, by rw [hTYl]; exact hfit.2.2⟩, ?_, ?_,
      Or.inr hshown⟩
    · rw [hTXs]; simpa using hlen
    · rw [← hax]
      have hY : c1.ticksY.map (fun t => t.axis) = c.ticksY.map (fun t => t.axis) := by
        apply List.ext_getElem?
        intro j
        by_cases hj : j < c.ticksY.length
        · have hj2 : j < ps.length := by rw [hl, ← hfit.2.2]; exact hj
          have := hTY j c.ticksY[j] ps[j] (List.getElem?_eq_getElem hj)
            (List.getElem?_eq_getElem hj2)
          simp [List.getElem?_map, this, List.getElem?_eq_getElem hj]
        · rw [List.getElem?_map, List.getElem?_map, List.getElem?_eq_none (by omega),
            List.getElem?_eq_none (by omega)]
      simp [Cursor.axes, hTX, hTXs, hY, Function.comp_def]

theorem dispatch_inv (app : App) (c0 c c1 : Cursor) (e : Event) (hc : Inv app c0 c)
    (hstep : dispatch app e c = some c1) : Inv app c0 c1 := by
  cases e with
  | mouseMove h i event =>
    simp only [dispatch] at hstep
    cases hch : app.charts[i]? with
    | none => simp [hch] at hstep
    | some chart =>
      simp only [hch] at hstep
      obtain ⟨c2, h2, hinv⟩ := mouseMove_inv h app chart i event c0 c hc
        (List.getElem?_eq_some_iff.mp hch).1
      rw [h2] at hstep
      cases hstep
      exact hinv
  | mouseLeave i =>
    simp only [dispatch] at hstep
    cases hch : app.charts[i]? with
    | none => simp [hch] at hstep
    | some chart =>
      simp only [hch, onSeriesBackgroundMouseLeave, Option.some.injEq] at hstep
      subst hstep
      exact hidden_inv app c0 c hc
  | mouseDragStart i =>
    simp only [dispatch] at hstep
    cases hch : app.charts[i]? with
    | none => simp [hch] at hstep
    | some chart =>
      simp only [hch, onSeriesBackgroundMouseDragStart, Option.some.injEq] at hstep
      subst hstep
      exact hidden_inv app c0 c hc

theorem reachable_inv (app : App) (c0 c : Cursor) (h0 : Inv app c0 c0)
    (hreach : Reachable app c0 c) : Inv app c0 c := by
  induction hreach with
  | init => exact h0
  | step e _ hstep ih => exact dispatch_inv app c0 _ _ e ih hstep

theorem initial_allDisposed (d : Defaults) (n : Nat) : (initialCursor d n).allDisposed true := by
  simp [initialCursor, Cursor.allDisposed]

theorem initial_inv (d : Defaults) (channels : List String) :
    Inv (initialApp channels) (initialCursor d channels.length)
      (initialCursor d channels.length) := by
  refine ⟨?_, rfl, rfl, Or.inl (initial_allDisposed d _)⟩
  simp [Fits, initialApp, initialCursor, seriesList_length, charts_length]

theorem setup_cases (d : Defaults) (channels : List String) (app : App) (c0 : Cursor)
    (hsetup : setup d channels = some (app, c0)) :
    channels ≠ [] ∧ app = initialApp channels ∧ c0 = initialCursor d channels.length := by
  by_cases hne : channels = []
  · subst hne
    simp [setup, charts, mapIdxFrom, index] at hsetup
  · rw [setup_eq d channels hne] at hsetup
    simp only [Option.some.injEq, Prod.mk.injEq] at hsetup
    exact ⟨hne, hsetup.1.symm, hsetup.2.symm⟩

/-! ## Reachable states of the program set up from a channel list -/

theorem reachable_setup (d : Defaults) (channels : List String) (app : App) (c0 c : Cursor)
    (hsetup : setup d channels = some (app, c0)) (hreach : Reachable app c0 c) :
    channels ≠ [] ∧ app = initialApp channels ∧ c0 = initialCursor d channels.length ∧
      Inv app c0 c := by
  obtain ⟨hne, happ, hc0⟩ := setup_cases d channels app c0 hsetup
  refine ⟨hne, happ, hc0, reachable_inv app c0 c ?_ hreach⟩
  rw [happ, hc0]
  exact initial_inv d channels

theorem dispatch_mouseMove (h : Host) (app : App) (chart : ChartXY) (i : Nat)
    (event : MouseEvent) (c : Cursor) (hchart : app.charts[i]? = some chart) :
    dispatch app (Event.mouseMove h i event) c =
      onSeriesBackgroundMouseMove h app chart i event c := by
  simp only [dispatch, hchart]

/-! ## The handlers do not throw in a reachable state -/

theorem dispatch_total (d : Defaults) (channels : List String) (app : App) (c0 c : Cursor)
    (e : Event) (i : Nat) (hsetup : setup d channels = some (app, c0))
    (hreach : Reachable app c0 c) (hi : i < channels.length)
    (he : (∃ h event, e = Event.mouseMove h i event) ∨ e = Event.mouseLeave i ∨
      e = Event.mouseDragStart i) :
    ∃ c1, dispatch app e c = some c1 := by
  obtain ⟨_, happ, _, hinv⟩ := reachable_setup d channels app c0 c hsetup hreach
  have hlen : app.charts.length = channels.length := by
    rw [happ]; simp [initialApp, charts_length]
  have hi2 : i < app.charts.length := by omega
  rcases he with ⟨h, event, rfl⟩ | rfl | rfl
  · obtain ⟨c1, h1, _⟩ := mouseMove_inv h app app.charts[i] i event c0 c hinv hi2
    exact ⟨c1, by
      rw [dispatch_mouseMove h app app.charts[i] i event c (List.getElem?_eq_getElem hi2)]
      exact h1⟩
  · exact ⟨onSeriesBackgroundMouseLeave c, by simp [dispatch, List.getElem?_eq_getElem hi2]⟩
  · exact ⟨onSeriesBackgroundMouseDragStart c, by
      simp [dispatch, List.getElem?_eq_getElem hi2]⟩

/-! ## C1 to C3: the guard and the table origin -/

/-- C1. If the nearest-point lookup of some series yields nothing, the mouse-move handler
returns with every overlay element disposed and with the table position, table origin,
row texts and tick and line values it had before the event. -/
theorem mouseMove_unsolved_hides (h : Host) (app : App) (chart : ChartXY) (i : Nat)
    (event : MouseEvent) (c : Cursor)
    (hnone : ∃ s ∈ app.seriesList,
      h.solveNearestFromScreen s (mouseLocationEngine h chart event) = none) :
    ∃ c1, onSeriesBackgroundMouseMove h app chart i event c = some c1 ∧
      c1.allDisposed true ∧
      c1.resultTable.position = c.resultTable.position ∧
      c1.resultTable.origin = c.resultTable.origin ∧
      c1.rowX = c.rowX ∧ c1.rowsY = c.rowsY ∧
      c1.tickX.value = c.tickX.value ∧
      c1.ticksX.map (fun t => t.value) = c.ticksX.map (fun t => t.value) ∧
      c1.ticksY.map (fun t => t.value) = c.ticksY.map (fun t => t.value) := by
  have hany : (nearestDataPoints h app (mouseLocationEngine h chart event)).any
      (fun p => p.isNone) = true := by
    obtain ⟨s, hs, hsn⟩ := hnone
    simp only [nearestDataPoints, List.any_eq_true, List.mem_map]
    exact ⟨none, ⟨s, hs, hsn⟩, rfl⟩
  refine ⟨_, mouseMove_hidden h app chart i event c hany, hidden_allDisposed c, ?_⟩
  simp [setCustomCursorVisible, ResultTable.dispose, CustomTick.dispose, ConstantLine.dispose,
    Function.comp_def]

/-- Instance: the second series of `gapHost` yields nothing and the prior overlay is shown. -/
theorem mouseMove_unsolved_hides_witness :
    ∃ c1, onSeriesBackgroundMouseMove gapHost (initialApp channels) (createChart 3 0) 0
        exampleEvent (setCustomCursorVisible true (initialCursor exampleDefaults 3)) = some c1 ∧
      c1.allDisposed true ∧
      c1.resultTable.position =
        (setCustomCursorVisible true (initialCursor exampleDefaults 3)).resultTable.position ∧
      c1.resultTable.origin =
        (setCustomCursorVisible true (initialCursor exampleDefaults 3)).resultTable.origin ∧
      c1.rowX = (setCustomCursorVisible true (initialCursor exampleDefaults 3)).rowX ∧
      c1.rowsY = (setCustomCursorVisible true (initialCursor exampleDefaults 3)).rowsY ∧
      c1.tickX.value =
        (setCustomCursorVisible true (initialCursor exampleDefaults 3)).tickX.value ∧
      c1.ticksX.map (fun t => t.value) =
        (setCustomCursorVisible true (initialCursor exampleDefaults 3)).ticksX.map
          (fun t => t.value) ∧
      c1.ticksY.map (fun t => t.value) =
        (setCustomCursorVisible true (initialCursor exampleDefaults 3)).ticksY.map
          (fun t => t.value) :=
  mouseMove_unsolved_hides gapHost (initialApp channels) (createChart 3 0) 0 exampleEvent
    (setCustomCursorVisible true (initialCursor exampleDefaults 3)) (by decide)

/-- C2. When every series yields a nearest point, the mouse-move handler of chart `i` sets the
table origin to RightBottom if the x of chart `i`'s nearest point is strictly greater than
`end / 1.5` (the JavaScript quotient), `end` being the end of the interval of chart `i`'s own
X axis, and to LeftBottom otherwise, also when x equals the quotient; the result does not
depend on the previous origin. -/
theorem mouseMove_origin (h : Host) (app : App) (chart : ChartXY) (i : Nat) (event : MouseEvent)
    (c : Cursor) (ps : List DataPoint) (p : DataPoint)
    (hfit : Fits app c) (hchart : app.charts[i]? = some chart)
    (hps : nearestDataPoints h app (mouseLocationEngine h chart event) = ps.map some)
    (hp : ps[i]? = some p) :
    (onSeriesBackgroundMouseMove h app chart i event c).map (fun c1 => c1.resultTable.origin) =
      some (if JSNumber.gt (JSNumber.finite p.location.x)
          (JSNumber.div (h.getInterval chart.getDefaultAxisX).«end» 1.5) then
        UIOrigins.RightBottom else UIOrigins.LeftBottom) ∧
    ∀ t : ℚ, JSNumber.div (h.getInterval chart.getDefaultAxisX).«end» 1.5 = JSNumber.finite t →
      ((onSeriesBackgroundMouseMove h app chart i event c).map
          (fun c1 => c1.resultTable.origin) = some UIOrigins.RightBottom ↔ t < p.location.x) ∧
      ((onSeriesBackgroundMouseMove h app chart i event c).map
          (fun c1 => c1.resultTable.origin) = some UIOrigins.LeftBottom ↔ p.location.x ≤ t) := by
  have _ := hchart
  obtain ⟨series, hs, _⟩ := series_of_solved _ _ ps i p hps hp
  obtain ⟨c1, heq, hT, _⟩ := mouseMove_shown h app chart i event c ps series p hfit hps hs hp
  have key : (onSeriesBackgroundMouseMove h app chart i event c).map
      (fun c1 => c1.resultTable.origin) =
      some (if JSNumber.gt (JSNumber.finite p.location.x)
          (JSNumber.div (h.getInterval chart.getDefaultAxisX).«end» 1.5) then
        UIOrigins.RightBottom else UIOrigins.LeftBottom) := by
    rw [heq, Option.map_some', hT]
  refine ⟨key, ?_⟩
  intro t ht
  rw [key, ht]
  by_cases hlt : t < p.location.x
  · have hg : JSNumber.gt (JSNumber.finite p.location.x) (JSNumber.finite t) = true :=
      (gt_finite _ _).mpr hlt
    simp [hg, hlt]
  · have hg : JSNumber.gt (JSNumber.finite p.location.x) (JSNumber.finite t) = false := by
      cases hb : JSNumber.gt (JSNumber.finite p.location.x) (JSNumber.finite t) with
      | false => rfl
      | true => exact absurd ((gt_finite _ _).mp hb) hlt
    simp [hg, hlt, not_lt.mp hlt]

/-- Instance: interval [0, 100] and nearest x = 66.66666666666667, the double that `100 / 1.5`
yields; x is not greater than the quotient, so the origin is LeftBottom. -/
theorem mouseMove_origin_witness :
    JSNumber.div 100 1.5 = JSNumber.finite quotient100 ∧
    (onSeriesBackgroundMouseMove tieHost (initialApp channels) (createChart 3 1) 1
        exampleEvent (initialCursor exampleDefaults 3)).map (fun c1 => c1.resultTable.origin) =
      some UIOrigins.LeftBottom := by
  have hd : JSNumber.div 100 1.5 = JSNumber.finite quotient100 := by decide!
  have hw := mouseMove_origin tieHost (initialApp channels) (createChart 3 1) 1 exampleEvent
    (initialCursor exampleDefaults 3) tiePoints ⟨⟨quotient100, 8⟩⟩ (by unfold Fits; decide)
    rfl rfl rfl
  exact ⟨hd, (hw.2 quotient100 hd).2.mpr (le_refl _)⟩

/-- C3, as stated, fails: with the visible interval [30, 60] and the nearest x = 45 inside it
the handler sets RightBottom (the quotient `60 / 1.5` is the double 40), although 45 does not
exceed the two-thirds point 30 + (2/3) * (60 - 30) = 50 of the visible range. -/
theorem origin_twoThirds_counterexample :
    exampleHost.getInterval (createChart 3 1).getDefaultAxisX = ⟨30, 60⟩ ∧
    nearestDataPoints exampleHost (initialApp channels)
      (mouseLocationEngine exampleHost (createChart 3 1) exampleEvent) =
      [some ⟨⟨45, 7⟩⟩, some ⟨⟨45, 8⟩⟩, some ⟨⟨45, 9⟩⟩] ∧
    (30 : ℚ) < 60 ∧ (30 : ℚ) ≤ 45 ∧ (45 : ℚ) ≤ 60 ∧
    JSNumber.div 60 1.5 = JSNumber.finite 40 ∧
    (onSeriesBackgroundMouseMove exampleHost (initialApp channels) (createChart 3 1) 1
        exampleEvent (initialCursor exampleDefaults 3)).map (fun c1 => c1.resultTable.origin) =
      some UIOrigins.RightBottom ∧
    ¬ ((45 : ℚ) > 30 + (2 / 3) * (60 - 30)) := by
  refine ⟨rfl, rfl, by norm_num, by norm_num, by norm_num, div_60, ?_, by norm_num⟩
  obtain ⟨c1, heq, hT, _⟩ := mouseMove_shown exampleHost (initialApp channels) (createChart 3 1) 1
    exampleEvent (initialCursor exampleDefaults 3) examplePoints ⟨1, "ProgressiveX"⟩ ⟨⟨45, 8⟩⟩
    (by unfold Fits; decide) rfl rfl rfl
  have hg : JSNumber.gt (JSNumber.finite 45) (JSNumber.div 60 1.5) = true := by decide!
  rw [heq, Option.map_some', hT]
  have hx : (⟨⟨45, 8⟩⟩ : DataPoint).location.x = 45 := rfl
  have he : (exampleHost.getInterval (createChart 3 1).getDefaultAxisX).«end» = 60 := rfl
  rw [hx, he, hg]
  rfl

/-- C3, amended. The handler sets RightBottom exactly when the nearest x is greater than
`end / 1.5`, which is the double nearest to the exact value `(2/3) * end`; the test does not
read `start`, so two hosts whose intervals differ in `start` only give the same origin; the
threshold is the rounded two-thirds point `start + (2/3) * (end - start)` of the visible
range when `start = 0`. -/
theorem mouseMove_origin_threshold (h : Host) (app : App) (chart : ChartXY) (i : Nat)
    (event : MouseEvent) (c : Cursor) (ps : List DataPoint) (p : DataPoint)
    (hfit : Fits app c) (hchart : app.charts[i]? = some chart)
    (hps : nearestDataPoints h app (mouseLocationEngine h chart event) = ps.map some)
    (hp : ps[i]? = some p) :
    ((onSeriesBackgroundMouseMove h app chart i event c).map (fun c1 => c1.resultTable.origin) =
        some UIOrigins.RightBottom ↔
      JSNumber.gt (JSNumber.finite p.location.x)
        (roundToDouble ((2 / 3) * (h.getInterval chart.getDefaultAxisX).«end»)) = true) ∧
    (∀ h2 : Host, h2.clientLocation2Engine = h.clientLocation2Engine →
      h2.solveNearestFromScreen = h.solveNearestFromScreen →
      (h2.getInterval chart.getDefaultAxisX).«end» = (h.getInterval chart.getDefaultAxisX).«end» →
      (onSeriesBackgroundMouseMove h2 app chart i event c).map
          (fun c1 => c1.resultTable.origin) =
        (onSeriesBackgroundMouseMove h app chart i event c).map
          (fun c1 => c1.resultTable.origin)) ∧
    ((h.getInterval chart.getDefaultAxisX).start = 0 →
      ((onSeriesBackgroundMouseMove h app chart i event c).map
          (fun c1 => c1.resultTable.origin) = some UIOrigins.RightBottom ↔
        JSNumber.gt (JSNumber.finite p.location.x)
          (roundToDouble ((h.getInterval chart.getDefaultAxisX).start +
            (2 / 3) * ((h.getInterval chart.getDefaultAxisX).«end» -
              (h.getInterval chart.getDefaultAxisX).start))) = true)) := by
  have _ := hchart
  obtain ⟨series, hs, _⟩ := series_of_solved _ _ ps i p hps hp
  obtain ⟨c1, heq, hT, _⟩ := mouseMove_shown h app chart i event c ps series p hfit hps hs hp
  have key : (onSeriesBackgroundMouseMove h app chart i event c).map
        (fun c1 => c1.resultTable.origin) = some UIOrigins.RightBottom ↔
      JSNumber.gt (JSNumber.finite p.location.x)
        (roundToDouble ((2 / 3) * (h.getInterval chart.getDefaultAxisX).«end»)) = true := by
    rw [heq, Option.map_some', hT, ← div_onePointFive]
    cases hg : JSNumber.gt (JSNumber.finite p.location.x)
        (JSNumber.div (h.getInterval chart.getDefaultAxisX).«end» 1.5) <;> simp
  refine ⟨key, ?_, ?_⟩
  · intro h2 hcl hsol hend
    have hps2 : nearestDataPoints h2 app (mouseLocationEngine h2 chart event) = ps.map some := by
      rw [← hps]
      simp only [nearestDataPoints, mouseLocationEngine, hcl, hsol]
    obtain ⟨c2, heq2, hT2, _⟩ :=
      mouseMove_shown h2 app chart i event c ps series p hfit hps2 hs hp
    rw [heq, heq2, Option.map_some', Option.map_some', hT, hT2, hend]
  · intro h0
    rw [key, h0]
    simp

/-- Instance: interval [0, 100] and nearest x = 66.66666666666667, which is the double nearest
to (2/3) * 100, so x is not greater than the threshold. -/
theorem mouseMove_origin_threshold_witness :
    roundToDouble ((2 / 3) * 100) = JSNumber.finite quotient100 ∧
    ¬ ((onSeriesBackgroundMouseMove tieHost (initialApp channels) (createChart 3 1) 1
          exampleEvent (initialCursor exampleDefaults 3)).map
        (fun c1 => c1.resultTable.origin) = some UIOrigins.RightBottom) ∧
    (onSeriesBackgroundMouseMove (intervalHost ⟨0, 100⟩) (initialApp channels) (createChart 3 1) 1
          exampleEvent (initialCursor exampleDefaults 3)).map
        (fun c1 => c1.resultTable.origin) =
      (onSeriesBackgroundMouseMove (intervalHost ⟨30, 100⟩) (initialApp channels)
          (createChart 3 1) 1 exampleEvent (initialCursor exampleDefaults 3)).map
        (fun c1 => c1.resultTable.origin) := by
  have hr : roundToDouble ((2 / 3) * 100) = JSNumber.finite quotient100 := by
    rw [← div_onePointFive]
    exact div_100
  have hw := mouseMove_origin_threshold tieHost (initialApp channels) (createChart 3 1) 1
    exampleEvent (initialCursor exampleDefaults 3) tiePoints ⟨⟨quotient100, 8⟩⟩
    (by unfold Fits; decide) rfl rfl rfl
  have hv := mouseMove_origin_threshold (intervalHost ⟨30, 100⟩) (initialApp channels)
    (createChart 3 1) 1 exampleEvent (initialCursor exampleDefaults 3) examplePoints
    ⟨⟨45, 8⟩⟩ (by unfold Fits; decide) rfl rfl rfl
  refine ⟨hr, ?_, hv.2.1 (intervalHost ⟨0, 100⟩) rfl rfl rfl⟩
  intro hRB
  have hg := (hw.2.2 rfl).mp hRB
  have he : (tieHost.getInterval (createChart 3 1).getDefaultAxisX).«end» = 100 := rfl
  have hs0 : (tieHost.getInterval (createChart 3 1).getDefaultAxisX).start = 0 := rfl
  have hx : (⟨⟨quotient100, 8⟩⟩ : DataPoint).location.x = quotient100 := rfl
  rw [he, hs0, hx] at hg
  have hz : (0 : ℚ) + 2 / 3 * (100 - 0) = (2 / 3) * 100 := by norm_num
  rw [hz, hr, gt_finite] at hg
  exact lt_irrefl _ hg

/-! ## C4 to C6: texts, ticks and position of the shown overlay -/

/-- C4. In the program set up from a channel list, after a mouse-move on chart `i` in which
every series yields a nearest point, the table has one Y row per channel, the X row reads
"X: " followed by the bottom chart's X axis `formatValue` of the triggering chart's nearest x,
and Y row `j` reads "Y" followed by `j`, ": " and chart `j`'s Y axis `formatValue` of series
`j`'s nearest y, for every channel `j`. -/
theorem mouseMove_texts (d : Defaults) (channels : List String) (app : App) (c0 c : Cursor)
    (h : Host) (i : Nat) (chart bottom : ChartXY) (event : MouseEvent) (ps : List DataPoint)
    (p : DataPoint)
    (hsetup : setup d channels = some (app, c0)) (hreach : Reachable app c0 c)
    (hchart : app.charts[i]? = some chart)
    (hbottom : app.charts[app.charts.length - 1]? = some bottom)
    (hps : nearestDataPoints h app (mouseLocationEngine h chart event) = ps.map some)
    (hp : ps[i]? = some p) :
    ∃ c1, dispatch app (Event.mouseMove h i event) c = some c1 ∧
      c1.rowsY.length = channels.length ∧
      c1.rowX.text = "X: " ++ h.formatValue bottom.getDefaultAxisX p.location.x ∧
      ∀ (j : Nat) (chartJ : ChartXY) (q : DataPoint),
        app.charts[j]? = some chartJ → ps[j]? = some q →
        (c1.rowsY[j]?).map (fun r => r.text) =
          some ("Y" ++ toString j ++ ": " ++ h.formatValue chartJ.getDefaultAxisY q.location.y) := by
  obtain ⟨hne, happ, _, hfit, _, _, _⟩ := reachable_setup d channels app c0 c hsetup hreach
  obtain ⟨series, hs, _⟩ := series_of_solved _ _ ps i p hps hp
  obtain ⟨c1, heq, _, hRX, hRYl, hRY, _⟩ :=
    mouseMove_shown h app chart i event c ps series p hfit hps hs hp
  have hpos : 0 < channels.length := List.length_pos.mpr hne
  have hn : app.seriesList.length = channels.length := by
    rw [happ]; simp [initialApp, seriesList_length, charts_length]
  have hax : app.axisX = bottom.getDefaultAxisX := by
    rw [happ] at hbottom
    simp only [initialApp, charts_length] at hbottom
    rw [charts_getElem? channels _ (by omega)] at hbottom
    cases hbottom
    rw [happ]
    simp [initialApp, ChartXY.getDefaultAxisX, createChart_rowIndex]
  refine ⟨c1, ?_, ?_, ?_, ?_⟩
  · rw [dispatch_mouseMove h app chart i event c hchart, heq]
  · rw [hRYl, hfit.2.1, hn]
  · rw [hRX, hax]
  · intro j chartJ q hc hq
    rw [hRY j chartJ q hc hq]
    rfl

/-- Instance: a mouse-move on chart 1 in the initial state of the three-channel program. -/
theorem mouseMove_texts_witness :
    ∃ c1, dispatch (initialApp channels) (Event.mouseMove exampleHost 1 exampleEvent)
        (initialCursor exampleDefaults 3) = some c1 ∧
      c1.rowsY.length = channels.length ∧
      c1.rowX.text = "X: " ++ exampleHost.formatValue (createChart 3 2).getDefaultAxisX
        (⟨⟨45, 8⟩⟩ : DataPoint).location.x ∧
      ∀ (j : Nat) (chartJ : ChartXY) (q : DataPoint),
        (initialApp channels).charts[j]? = some chartJ → examplePoints[j]? = some q →
        (c1.rowsY[j]?).map (fun r => r.text) =
          some ("Y" ++ toString j ++ ": " ++
            exampleHost.formatValue chartJ.getDefaultAxisY q.location.y) :=
  mouseMove_texts exampleDefaults channels (initialApp channels) (initialCursor exampleDefaults 3)
    (initialCursor exampleDefaults 3) exampleHost 1 (createChart 3 1) (createChart 3 2)
    exampleEvent examplePoints ⟨⟨45, 8⟩⟩ rfl Reachable.init rfl rfl rfl rfl

/-- C5. In the program set up from a channel list, after a mouse-move on chart `i` in which
every series yields a nearest point, the tick on the bottom X axis has the triggering chart's
nearest x as value, so has the constant line on the X axis of every other chart, the tick on
the Y axis of every chart `j` has series `j`'s own nearest y as value, and every overlay
element is restored. -/
theorem mouseMove_ticks (d : Defaults) (channels : List String) (app : App) (c0 c : Cursor)
    (h : Host) (i : Nat) (chart : ChartXY) (event : MouseEvent) (ps : List DataPoint)
    (p : DataPoint)
    (hsetup : setup d channels = some (app, c0)) (hreach : Reachable app c0 c)
    (hchart : app.charts[i]? = some chart)
    (hps : nearestDataPoints h app (mouseLocationEngine h chart event) = ps.map some)
    (hp : ps[i]? = some p) :
    ∃ c1, dispatch app (Event.mouseMove h i event) c = some c1 ∧
      c1.tickX.axis = ⟨channels.length - 1, AxisDim.X⟩ ∧ c1.tickX.value = p.location.x ∧
      c1.ticksX.map (fun t => (t.axis, t.value)) =
        (List.range (channels.length - 1)).map
          (fun k => ((⟨k, AxisDim.X⟩ : Axis), p.location.x)) ∧
      c1.ticksY.length = channels.length ∧
      (∀ (j : Nat) (q : DataPoint), ps[j]? = some q →
        (c1.ticksY[j]?).map (fun t => (t.axis, t.value)) =
          some ((⟨j, AxisDim.Y⟩ : Axis), q.location.y)) ∧
      c1.allDisposed false := by
  obtain ⟨_, happ, hc0, hfit, _, hax, _⟩ := reachable_setup d channels app c0 c hsetup hreach
  obtain ⟨series, hs, _⟩ := series_of_solved _ _ ps i p hps hp
  obtain ⟨c1, heq, _, _, _, _, hTX, hTXs, hTYl, hTY, hshown⟩ :=
    mouseMove_shown h app chart i event c ps series p hfit hps hs hp
  have hn : app.seriesList.length = channels.length := by
    rw [happ]; simp [initialApp, seriesList_length, charts_length]
  have hl : ps.length = channels.length := by
    rw [← hn]
    simpa [nearestDataPoints] using (congrArg List.length hps).symm
  rw [hc0] at hax
  simp only [Cursor.axes, initialCursor, List.map_map, Prod.mk.injEq] at hax
  obtain ⟨haX, haXs, haYs⟩ := hax
  have hYax : ∀ (j : Nat) (t : CustomTick), c.ticksY[j]? = some t → t.axis = ⟨j, AxisDim.Y⟩ := by
    intro j t ht
    have hj : j < channels.length := by
      have := (List.getElem?_eq_some_iff.mp ht).1
      rw [hfit.2.2, hn] at this
      exact this
    have := congrArg (fun l => l[j]?) haYs
    simp [ht, List.getElem?_range hj] at this
    exact this
  refine ⟨c1, ?_, ?_, ?_, ?_, ?_, ?_, ?_⟩
  · rw [dispatch_mouseMove h app chart i event c hchart, heq]
  · rw [hTX]; exact haX
  · rw [hTX]
  · rw [hTXs]
    have := congrArg (fun l => l.map (fun a => (a, p.location.x))) haXs
    simpa [Function.comp_def] using this
  · rw [hTYl, hfit.2.2, hn]
  · intro j q hq
    have hj : j < c.ticksY.length := by
      have := (List.getElem?_eq_some_iff.mp hq).1
      rw [hfit.2.2, hn, ← hl]
      exact this
    rw [hTY j c.ticksY[j] q (List.getElem?_eq_getElem hj) hq]
    simp [hYax j c.ticksY[j] (List.getElem?_eq_getElem hj)]
  · exact hshown

/-- Instance: a mouse-move on chart 1 in the initial state of the three-channel program. -/
theorem mouseMove_ticks_witness :
    ∃ c1, dispatch (initialApp channels) (Event.mouseMove exampleHost 1 exampleEvent)
        (initialCursor exampleDefaults 3) = some c1 ∧
      c1.tickX.axis = ⟨channels.length - 1, AxisDim.X⟩ ∧
      c1.tickX.value = (⟨⟨45, 8⟩⟩ : DataPoint).location.x ∧
      c1.ticksX.map (fun t => (t.axis, t.value)) =
        (List.range (channels.length - 1)).map
          (fun k => ((⟨k, AxisDim.X⟩ : Axis), (⟨⟨45, 8⟩⟩ : DataPoint).location.x)) ∧
      c1.ticksY.length = channels.length ∧
      (∀ (j : Nat) (q : DataPoint), examplePoints[j]? = some q →
        (c1.ticksY[j]?).map (fun t => (t.axis, t.value)) =
          some ((⟨j, AxisDim.Y⟩ : Axis), q.location.y)) ∧
      c1.allDisposed false :=
  mouseMove_ticks exampleDefaults channels (initialApp channels) (initialCursor exampleDefaults 3)
    (initialCursor exampleDefaults 3) exampleHost 1 (createChart 3 1) exampleEvent examplePoints
    ⟨⟨45, 8⟩⟩ rfl Reachable.init rfl rfl rfl

/-- C6. After a mouse-move on chart `i` in which every series yields a nearest point, the
table position has the x of `translatePoint` applied to chart `i`'s nearest point (from series
`i`'s scale to the dashboard engine scale) and the y of the mouse location converted by
`clientLocation2Engine`; a host that differs only in the nearest points of the other series
gives the same position. -/
theorem mouseMove_position (h : Host) (app : App) (chart : ChartXY) (i : Nat)
    (event : MouseEvent) (c : Cursor) (ps : List DataPoint) (series : LineSeries) (p : DataPoint)
    (hfit : Fits app c) (hchart : app.charts[i]? = some chart)
    (hps : nearestDataPoints h app (mouseLocationEngine h chart event) = ps.map some)
    (hs : app.seriesList[i]? = some series) (hp : ps[i]? = some p) :
    (onSeriesBackgroundMouseMove h app chart i event c).map
        (fun c1 => c1.resultTable.position) =
      some ⟨(h.translatePoint p.location series.scale Scale.dashboardEngine).x,
        (h.clientLocation2Engine chart event.clientX event.clientY).y⟩ ∧
    ∀ (h2 : Host) (ps2 : List DataPoint),
      h2.clientLocation2Engine = h.clientLocation2Engine →
      h2.translatePoint = h.translatePoint →
      nearestDataPoints h2 app (mouseLocationEngine h2 chart event) = ps2.map some →
      ps2[i]? = some p →
      (onSeriesBackgroundMouseMove h2 app chart i event c).map
          (fun c1 => c1.resultTable.position) =
        (onSeriesBackgroundMouseMove h app chart i event c).map
          (fun c1 => c1.resultTable.position) := by
  have _ := hchart
  obtain ⟨c1, heq, hT, _⟩ := mouseMove_shown h app chart i event c ps series p hfit hps hs hp
  have h1 : (onSeriesBackgroundMouseMove h app chart i event c).map
      (fun c1 => c1.resultTable.position) =
      some ⟨(h.translatePoint p.location series.scale Scale.dashboardEngine).x,
        (h.clientLocation2Engine chart event.clientX event.clientY).y⟩ := by
    rw [heq, Option.map_some', hT]
    rfl
  refine ⟨h1, ?_⟩
  intro h2 ps2 hcl htr hps2 hp2
  obtain ⟨c2, heq2, hT2, _⟩ :=
    mouseMove_shown h2 app chart i event c ps2 series p hfit hps2 hs hp2
  rw [h1, heq2, Option.map_some', hT2]
  simp [mouseLocationEngine, hcl, htr]

/-- Instance: the position is (45, 12) with `exampleHost`, and the same with `otherHost`. -/
theorem mouseMove_position_witness :
    (onSeriesBackgroundMouseMove exampleHost (initialApp channels) (createChart 3 1) 1
        exampleEvent (initialCursor exampleDefaults 3)).map
        (fun c1 => c1.resultTable.position) = some ⟨45, 12⟩ ∧
    (onSeriesBackgroundMouseMove otherHost (initialApp channels) (createChart 3 1) 1
        exampleEvent (initialCursor exampleDefaults 3)).map
        (fun c1 => c1.resultTable.position) =
      (onSeriesBackgroundMouseMove exampleHost (initialApp channels) (createChart 3 1) 1
        exampleEvent (initialCursor exampleDefaults 3)).map
        (fun c1 => c1.resultTable.position) :=
  have hw := mouseMove_position exampleHost (initialApp channels) (createChart 3 1) 1
    exampleEvent (initialCursor exampleDefaults 3) examplePoints ⟨1, "ProgressiveX"⟩ ⟨⟨45, 8⟩⟩
    (by unfold Fits; decide) rfl rfl rfl rfl
  ⟨hw.1, hw.2 otherHost otherPoints rfl rfl rfl rfl⟩

/-! ## C7 and C8: hiding, and independence of the prior state -/

/-- C7. A pointer-leave or a drag-start on any chart leaves every overlay element disposed
and keeps table position, origin, row texts and tick and line values; applied again it gives
the same state; a later mouse-move in which every series yields a nearest point restores
every element. -/
theorem leave_dragStart_hide (app : App) (i : Nat) (chart : ChartXY) (c : Cursor)
    (hchart : app.charts[i]? = some chart) :
    ∃ c1, dispatch app (Event.mouseLeave i) c = some c1 ∧
      dispatch app (Event.mouseDragStart i) c = some c1 ∧
      c1.allDisposed true ∧
      c1.resultTable.position = c.resultTable.position ∧
      c1.resultTable.origin = c.resultTable.origin ∧
      c1.rowX = c.rowX ∧ c1.rowsY = c.rowsY ∧
      c1.tickX.value = c.tickX.value ∧
      c1.ticksX.map (fun t => t.value) = c.ticksX.map (fun t => t.value) ∧
      c1.ticksY.map (fun t => t.value) = c.ticksY.map (fun t => t.value) ∧
      dispatch app (Event.mouseLeave i) c1 = some c1 ∧
      dispatch app (Event.mouseDragStart i) c1 = some c1 ∧
      ∀ (h : Host) (k : Nat) (chartK : ChartXY) (event : MouseEvent) (ps : List DataPoint),
        Fits app c → app.charts[k]? = some chartK →
        nearestDataPoints h app (mouseLocationEngine h chartK event) = ps.map some →
        ∃ c2, dispatch app (Event.mouseMove h k event) c1 = some c2 ∧ c2.allDisposed false := by
  refine ⟨setCustomCursorVisible false c, by simp [dispatch, hchart, onSeriesBackgroundMouseLeave],
    by simp [dispatch, hchart, onSeriesBackgroundMouseDragStart], hidden_allDisposed c, ?_⟩
  refine ⟨?_, ?_, ?_, ?_, ?_, ?_, ?_, ?_, ?_, ?_⟩
  · simp [setCustomCursorVisible, ResultTable.dispose]
  · simp [setCustomCursorVisible, ResultTable.dispose]
  · simp [setCustomCursorVisible]
  · simp [setCustomCursorVisible]
  · simp [setCustomCursorVisible, CustomTick.dispose]
  · simp [setCustomCursorVisible, ConstantLine.dispose, Function.comp_def]
  · simp [setCustomCursorVisible, CustomTick.dispose, Function.comp_def]
  · simp [dispatch, hchart, onSeriesBackgroundMouseLeave, setCustomCursorVisible,
      ResultTable.dispose, CustomTick.dispose, ConstantLine.dispose, Function.comp_def]
  · simp [dispatch, hchart, onSeriesBackgroundMouseDragStart, setCustomCursorVisible,
      ResultTable.dispose, CustomTick.dispose, ConstantLine.dispose, Function.comp_def]
  · intro h k chartK event ps hfit hk hps
    have hfit1 : Fits app (setCustomCursorVisible false c) := by
      simpa [Fits, setCustomCursorVisible] using hfit
    have hl : ps.length = app.seriesList.length := by
      simpa [nearestDataPoints] using (congrArg List.length hps).symm
    have hk2 : k < ps.length := by
      rw [hl, ← hfit.1]; exact (List.getElem?_eq_some_iff.mp hk).1
    obtain ⟨series, hs, _⟩ := series_of_solved _ _ ps k ps[k] hps (List.getElem?_eq_getElem hk2)
    obtain ⟨c2, heq, _, _, _, _, _, _, _, _, hshown⟩ :=
      mouseMove_shown h app chartK k event (setCustomCursorVisible false c) ps series ps[k]
        hfit1 hps hs (List.getElem?_eq_getElem hk2)
    exact ⟨c2, by rw [dispatch_mouseMove h app chartK k event _ hk, heq], hshown⟩

/-- Instance: a pointer-leave on chart 1 from a shown overlay, then a mouse-move on chart 2. -/
theorem leave_dragStart_hide_witness :
    ∃ c1, dispatch (initialApp channels) (Event.mouseLeave 1) shownExample = some c1 ∧
      dispatch (initialApp channels) (Event.mouseDragStart 1) shownExample = some c1 ∧
      c1.allDisposed true ∧
      dispatch (initialApp channels) (Event.mouseLeave 1) c1 = some c1 ∧
      ∃ c2, dispatch (initialApp channels) (Event.mouseMove exampleHost 2 exampleEvent) c1 =
        some c2 ∧ c2.allDisposed false := by
  obtain ⟨c1, h1, h2, h3, _, _, _, _, _, _, _, h4, _, h5⟩ :=
    leave_dragStart_hide (initialApp channels) 1 (createChart 3 1) shownExample rfl
  exact ⟨c1, h1, h2, h3, h4, h5 exampleHost 2 (createChart 3 2) exampleEvent examplePoints
    (by unfold Fits; decide) rfl rfl⟩

/-- C8. The overlay after a mouse-move in which every series yields a nearest point does not
depend on the overlay before it: from any two prior overlays of the program the handler
returns states with the same table position, origin, row texts, tick and line values and
disposed flags. -/
theorem mouseMove_forgets_prior (h : Host) (app : App) (chart : ChartXY) (i : Nat)
    (event : MouseEvent) (s1 s2 : Cursor) (ps : List DataPoint) (p : DataPoint)
    (hfit1 : Fits app s1) (hfit2 : Fits app s2) (hX : s1.ticksX.length = s2.ticksX.length)
    (hchart : app.charts[i]? = some chart)
    (hps : nearestDataPoints h app (mouseLocationEngine h chart event) = ps.map some)
    (hp : ps[i]? = some p) :
    ∃ c1 c2, onSeriesBackgroundMouseMove h app chart i event s1 = some c1 ∧
      onSeriesBackgroundMouseMove h app chart i event s2 = some c2 ∧ c1.view = c2.view := by
  have _ := hchart
  obtain ⟨series, hs, _⟩ := series_of_solved _ _ ps i p hps hp
  obtain ⟨c1, heq1, hT1, hRX1, hRYl1, hRY1, hTX1, hTXs1, hTYl1, hTY1, _⟩ :=
    mouseMove_shown h app chart i event s1 ps series p hfit1 hps hs hp
  obtain ⟨c2, heq2, hT2, hRX2, hRYl2, hRY2, hTX2, hTXs2, hTYl2, hTY2, _⟩ :=
    mouseMove_shown h app chart i event s2 ps series p hfit2 hps hs hp
  have hl : ps.length = app.seriesList.length := by
    simpa [nearestDataPoints] using (congrArg List.length hps).symm
  have hrows : c1.rowsY.map (fun r => r.text) = c2.rowsY.map (fun r => r.text) := by
    apply map_eq_of_pointwise
    · rw [hRYl1, hRYl2, hfit1.2.1, hfit2.2.1]
    · intro j a b ha hb
      have hj : j < app.seriesList.length := by
        have := (List.getElem?_eq_some_iff.mp ha).1
        rw [hRYl1, hfit1.2.1] at this
        exact this
      have hjc : j < app.charts.length := by rw [hfit1.1]; exact hj
      have hjp : j < ps.length := by rw [hl]; exact hj
      have e1 := hRY1 j app.charts[j] ps[j] (List.getElem?_eq_getElem hjc)
        (List.getElem?_eq_getElem hjp)
      have e2 := hRY2 j app.charts[j] ps[j] (List.getElem?_eq_getElem hjc)
        (List.getElem?_eq_getElem hjp)
      rw [ha] at e1
      rw [hb] at e2
      cases e1
      cases e2
      rfl
  have hY : ∀ (j : Nat) (a b : CustomTick), c1.ticksY[j]? = some a → c2.ticksY[j]? = some b →
      a.value = b.value ∧ a.disposed = b.disposed := by
    intro j a b ha hb
    have hj : j < app.seriesList.length := by
      have := (List.getElem?_eq_some_iff.mp ha).1
      rw [hTYl1, hfit1.2.2] at this
      exact this
    have hj1 : j < s1.ticksY.length := by rw [hfit1.2.2]; exact hj
    have hj2 : j < s2.ticksY.length := by rw [hfit2.2.2]; exact hj
    have hjp : j < ps.length := by rw [hl]; exact hj
    have e1 := hTY1 j s1.ticksY[j] ps[j] (List.getElem?_eq_getElem hj1)
      (List.getElem?_eq_getElem hjp)
    have e2 := hTY2 j s2.ticksY[j] ps[j] (List.getElem?_eq_getElem hj2)
      (List.getElem?_eq_getElem hjp)
    rw [ha] at e1
    rw [hb] at e2
    cases e1
    cases e2
    exact ⟨rfl, rfl⟩
  have hYlen : c1.ticksY.length = c2.ticksY.length := by
    rw [hTYl1, hTYl2, hfit1.2.2, hfit2.2.2]
  have hYv : c1.ticksY.map (fun t => t.value) = c2.ticksY.map (fun t => t.value) :=
    map_eq_of_pointwise _ _ _ _ hYlen (fun j a b ha hb => (hY j a b ha hb).1)
  have hYd : c1.ticksY.map (fun t => t.disposed) = c2.ticksY.map (fun t => t.disposed) :=
    map_eq_of_pointwise _ _ _ _ hYlen (fun j a b ha hb => (hY j a b ha hb).2)
  have hXv : c1.ticksX.map (fun t => t.value) = c2.ticksX.map (fun t => t.value) := by
    rw [hTXs1, hTXs2]
    simp [Function.comp_def, List.map_const', hX]
  have hXd : c1.ticksX.map (fun t => t.disposed) = c2.ticksX.map (fun t => t.disposed) := by
    rw [hTXs1, hTXs2]
    simp [Function.comp_def, List.map_const', hX]
  refine ⟨c1, c2, heq1, heq2, ?_⟩
  simp only [Cursor.view, hrows, hYv, hYd, hXv, hXd, hT1, hT2, hRX1, hRX2, hTX1, hTX2]

/-- Instance: the same mouse-move from the initial overlay and from a shown overlay. -/
theorem mouseMove_forgets_prior_witness :
    ∃ c1 c2, onSeriesBackgroundMouseMove exampleHost (initialApp channels) (createChart 3 1) 1
        exampleEvent (initialCursor exampleDefaults 3) = some c1 ∧
      onSeriesBackgroundMouseMove exampleHost (initialApp channels) (createChart 3 1) 1
        exampleEvent shownExample = some c2 ∧ c1.view = c2.view :=
  mouseMove_forgets_prior exampleHost (initialApp channels) (createChart 3 1) 1 exampleEvent
    (initialCursor exampleDefaults 3) shownExample examplePoints ⟨⟨45, 8⟩⟩
    (by unfold Fits; decide) (by unfold Fits; decide) rfl rfl rfl rfl

/-! ## C9 and C10: the setup and the reachable states -/

/-- C9. The setup creates one chart and one line series per channel, in channel order:
chart `i` sits in row `i` of column 0 with span 1x1, it has the title iff `i = 0` (every other
chart gets the empty title fill), and it keeps its X-axis ticks iff `i = n - 1` (every other
chart gets the Empty tick strategy); for a non-empty channel list the setup completes with
these charts and series. -/
theorem one_chart_per_channel (d : Defaults) (channels : List String) :
    (charts channels).length = channels.length ∧
    (seriesList (charts channels)).length = channels.length ∧
    (∀ i, i < channels.length → ∃ chart, (charts channels)[i]? = some chart ∧
      chart.columnIndex = 0 ∧ chart.rowIndex = i ∧ chart.columnSpan = 1 ∧ chart.rowSpan = 1 ∧
      (chart.title = some "Stacked Y Dashboard with Custom Cursor" ↔ i = 0) ∧
      (chart.titleFillStyle = some FillStyle.emptyFill ↔ i ≠ 0) ∧
      (chart.axisXTickStrategy = none ↔ i = channels.length - 1) ∧
      (chart.axisXTickStrategy = some AxisTickStrategies.Empty ↔ i ≠ channels.length - 1) ∧
      (seriesList (charts channels))[i]? = some (chart.addLineSeries "ProgressiveX")) ∧
    (channels ≠ [] → ∃ app c0, setup d channels = some (app, c0) ∧
      app.channelCount = channels.length ∧ app.charts = charts channels ∧
      app.seriesList = seriesList (charts channels)) := by
  refine ⟨charts_length channels, by rw [seriesList_length, charts_length], ?_, ?_⟩
  · intro i hi
    refine ⟨createChart channels.length i, charts_getElem? channels i hi, ?_⟩
    have hs : (seriesList (charts channels))[i]? =
        some ((createChart channels.length i).addLineSeries "ProgressiveX") := by
      simp [seriesList_getElem?, charts_getElem? channels i hi]
    rw [hs]
    rw [createChart_eq channels.length i hi]
    by_cases h0 : i = 0 <;> by_cases hl : i = channels.length - 1 <;> simp [h0, hl, hs]
  · intro hne
    exact ⟨_, _, setup_eq d channels hne, rfl, rfl, rfl⟩

/-- Instance: the channel list of the program, and its bottom chart. -/
theorem one_chart_per_channel_witness :
    (charts channels).length = channels.length ∧
    (seriesList (charts channels)).length = channels.length ∧
    (∃ chart, (charts channels)[2]? = some chart ∧
      chart.columnIndex = 0 ∧ chart.rowIndex = 2 ∧ chart.columnSpan = 1 ∧ chart.rowSpan = 1 ∧
      (chart.title = some "Stacked Y Dashboard with Custom Cursor" ↔ 2 = 0) ∧
      (chart.titleFillStyle = some FillStyle.emptyFill ↔ 2 ≠ 0) ∧
      (chart.axisXTickStrategy = none ↔ 2 = channels.length - 1) ∧
      (chart.axisXTickStrategy = some AxisTickStrategies.Empty ↔ 2 ≠ channels.length - 1) ∧
      (seriesList (charts channels))[2]? = some (chart.addLineSeries "ProgressiveX")) ∧
    (∃ app c0, setup exampleDefaults channels = some (app, c0) ∧
      app.channelCount = channels.length ∧ app.charts = charts channels ∧
      app.seriesList = seriesList (charts channels)) :=
  have hw := one_chart_per_channel exampleDefaults channels
  ⟨hw.1, hw.2.1, hw.2.2.1 2 (by decide), hw.2.2.2 (by decide)⟩

/-- C10. In every state the program set up from a channel list reaches through mouse-move,
pointer-leave and drag-start events, the result table, the X tick, the `n` Y ticks and the
`n - 1` X constant lines are all disposed or all restored; in the initial state they are all
disposed. -/
theorem overlay_shown_together (d : Defaults) (channels : List String) (app : App)
    (c0 c : Cursor) (hsetup : setup d channels = some (app, c0)) (hreach : Reachable app c0 c) :
    c0.allDisposed true ∧ (c.allDisposed true ∨ c.allDisposed false) ∧
      c.ticksY.length = channels.length ∧ c.ticksX.length = channels.length - 1 := by
  obtain ⟨_, happ, hc0, hfit, hlen, _, hall⟩ := reachable_setup d channels app c0 c hsetup hreach
  refine ⟨?_, hall, ?_, ?_⟩
  · rw [hc0]; exact initial_allDisposed d _
  · rw [hfit.2.2, happ]
    simp [initialApp, seriesList_length, charts_length]
  · rw [hlen, hc0]
    simp [initialCursor]

/-- Instance: the state reached by one mouse-move on chart 1. -/
theorem overlay_shown_together_witness :
    ∃ c1, dispatch (initialApp channels) (Event.mouseMove exampleHost 1 exampleEvent)
        (initialCursor exampleDefaults 3) = some c1 ∧
      (initialCursor exampleDefaults 3).allDisposed true ∧
      (c1.allDisposed true ∨ c1.allDisposed false) ∧
      c1.ticksY.length = channels.length ∧ c1.ticksX.length = channels.length - 1 := by
  obtain ⟨c1, h1, _⟩ := mouseMove_inv exampleHost (initialApp channels) (createChart 3 1) 1
    exampleEvent (initialCursor exampleDefaults 3) (initialCursor exampleDefaults 3)
    (initial_inv exampleDefaults channels) (by decide)
  have hd : dispatch (initialApp channels) (Event.mouseMove exampleHost 1 exampleEvent)
      (initialCursor exampleDefaults 3) = some c1 := by
    rw [dispatch_mouseMove exampleHost (initialApp channels) (createChart 3 1) 1 exampleEvent
      (initialCursor exampleDefaults 3) rfl]
    exact h1
  exact ⟨c1, hd, overlay_shown_together exampleDefaults channels (initialApp channels)
    (initialCursor exampleDefaults 3) c1 rfl (Reachable.step _ Reachable.init hd)⟩

end CustomCursorStackedY
